import Mathlib

/-!
Verification of the Roundtable council deliberation engine.

The definitions below are a shallow embedding of the TypeScript sources:
vote arithmetic and the motion voting fan-out from
src/council/orchestrator.ts, the response normalizers from
src/council/prompts.ts, the phase transition resolver, the documentation
approval loop, and the memory store pruning logic from
src/storage/memoryStore.ts.  Model calls are abstracted as oracles
(functions from a member id to the decoded JSON value the call produced),
and the scheduling of each parallel fan-out is abstracted as an arrival
permutation of the member list.
-/

namespace Roundtable

/-- Ballot values, from the Ballot union type in src/types.ts. -/
inductive Ballot where
  | yes
  | no
  | abstain
deriving DecidableEq, Repr

/-- Phase governance configuration, from PhaseGovernanceConfig in src/types.ts.
The majority threshold is a JS number compared exactly against 0.5; we model it
as a rational. -/
structure PhaseGovernanceConfig where
  requireSeconding : Bool
  majorityThreshold : ℚ
  abstainCountsAsNo : Bool
deriving DecidableEq, Repr

/-- Result record of computeVotePass, from VotePassResult in orchestrator.ts. -/
structure VotePassResult where
  passed : Bool
  yesVotes : ℕ
  noVotesEffective : ℕ
deriving DecidableEq, Repr

/-- Embedding of CouncilOrchestrator.computeVotePass (orchestrator.ts).
Math.floor(total / 2) on a natural total is natural division; Math.ceil on the
rational product is the integer ceiling. -/
def computeVotePass (ballots : List Ballot) (governance : PhaseGovernanceConfig) :
    VotePassResult :=
  let total := ballots.length
  let yesVotes := (ballots.filter (fun b => b == Ballot.yes)).length
  let noVotesEffective :=
    if governance.abstainCountsAsNo then total - yesVotes
    else (ballots.filter (fun b => b == Ballot.no)).length
  let requiredYesVotes : ℤ :=
    if governance.majorityThreshold = 1 / 2 then ((total / 2 : ℕ) : ℤ) + 1
    else ⌈(total : ℚ) * governance.majorityThreshold⌉
  { passed := decide ((yesVotes : ℤ) ≥ requiredYesVotes)
    yesVotes := yesVotes
    noVotesEffective := noVotesEffective }

/-- Modelled from the spec (section 4.7): the required number of YES votes,
written independently of the code with an explicit rational floor. -/
def requiredYesVotesSpec (total : ℕ) (threshold : ℚ) : ℤ :=
  if threshold = 1 / 2 then ⌊(total : ℚ) / 2⌋ + 1
  else ⌈(total : ℚ) * threshold⌉

/-- A decoded JavaScript JSON value, as produced by completeJson.  Arrays are
kept distinct from objects because typeof distinguishes them from primitives
but not from each other. -/
inductive JsValue where
  | jsNull
  | jsBool (b : Bool)
  | jsNum (q : ℚ)
  | jsStr (s : String)
  | jsArr (items : List JsValue)
  | jsObj (fields : List (String × JsValue))

/-- Property access on a JS value: objects return the first binding for the
key, every other value (including arrays indexed by a string key) yields
undefined, modelled as none. -/
def jsGetField : JsValue → String → Option JsValue
  | JsValue.jsObj fields, key => (fields.find? (fun f => f.1 == key)).map (fun f => f.2)
  | _, _ => none

/-- The typeof operator classifies objects and arrays (and null) as "object";
null is separately excluded by the truthiness guard in the code. -/
def isObjectLike : JsValue → Bool
  | JsValue.jsObj _ => true
  | JsValue.jsArr _ => true
  | _ => false

/-- Reads a field as a string, or none when absent or not a string. -/
def jsStringField (v : JsValue) (key : String) : Option String :=
  match jsGetField v key with
  | some (JsValue.jsStr s) => some s
  | _ => none

/-- Strict equality of a field against a string literal, as in
candidate.action === "CONTRIBUTE": true exactly when the field is a string
with that content. -/
def jsFieldIsStr (v : JsValue) (key lit : String) : Bool :=
  match jsStringField v key with
  | some s => s == lit
  | none => false

/-- Drops leading whitespace characters from a character list. -/
def dropLeadingWs : List Char → List Char
  | [] => []
  | c :: cs => if c.isWhitespace then dropLeadingWs cs else c :: cs

/-- Embedding of the JS string trim method: removes whitespace from both ends.
Defined structurally over the character list so that it evaluates inside the
kernel. -/
def jsTrim (s : String) : String :=
  String.mk (dropLeadingWs (dropLeadingWs s.data.reverse).reverse)

/-- Embedding of the JS slice(0, n) operation on strings. -/
def jsTake (s : String) (n : ℕ) : String :=
  String.mk (s.data.take n)

/-- The guard pattern typeof x === "string" && x.trim() followed by use of
x.trim: returns the trimmed string when it is non-empty. -/
def nonEmptyTrimmed (o : Option String) : Option String :=
  match o with
  | some s => if jsTrim s = "" then none else some (jsTrim s)
  | none => none

/-- Embedding of getParseErrorMessage (prompts.ts): detects the
json_parse_error envelope and extracts its message with a default. -/
def getParseErrorMessage (v : JsValue) : Option String :=
  if !isObjectLike v then none
  else if jsFieldIsStr v "__errorType" "json_parse_error" then
    match nonEmptyTrimmed (jsStringField v "message") with
    | some m => some m
    | none => some "Model response was not valid JSON."
  else none

/-- TurnAction, from the tagged union in src/types.ts. -/
inductive TurnAction where
  | contribute (message : String)
  | pass (reason : String) (note : Option String)
  | callVote (motionTitle motionText decisionIfPass : String)
deriving DecidableEq, Repr

/-- SecondingResponse, from src/types.ts. -/
structure SecondingResponse where
  second : Bool
  rationale : String
deriving DecidableEq, Repr

/-- VoteResponse, from src/types.ts. -/
structure VoteResponse where
  ballot : Ballot
  rationale : String
deriving DecidableEq, Repr

/-- LeaderElectionBallot, from src/types.ts. -/
structure LeaderElectionBallot where
  candidateId : String
  rationale : String
deriving DecidableEq, Repr

/-- The fixed note attached to fallback PASS actions in normalizeTurnAction. -/
def autoPassNote : String := "Auto-converted to PASS to preserve deterministic flow."

/-- Embedding of normalizeTurnAction (prompts.ts). -/
def normalizeTurnAction (v : JsValue) : TurnAction :=
  match getParseErrorMessage v with
  | some msg => TurnAction.pass ("Model JSON parse error: " ++ msg) (some autoPassNote)
  | none =>
    if jsFieldIsStr v "action" "CONTRIBUTE" then
      match nonEmptyTrimmed (jsStringField v "message") with
      | some m => TurnAction.contribute m
      | none => TurnAction.pass "Invalid response format from model." (some autoPassNote)
    else if jsFieldIsStr v "action" "PASS" then
      match nonEmptyTrimmed (jsStringField v "reason") with
      | some r => TurnAction.pass r (nonEmptyTrimmed (jsStringField v "note"))
      | none => TurnAction.pass "Invalid response format from model." (some autoPassNote)
    else if jsFieldIsStr v "action" "CALL_VOTE" then
      match nonEmptyTrimmed (jsStringField v "motionTitle"),
          nonEmptyTrimmed (jsStringField v "motionText"),
          nonEmptyTrimmed (jsStringField v "decisionIfPass") with
      | some t, some x, some d => TurnAction.callVote t x d
      | _, _, _ => TurnAction.pass "Invalid response format from model." (some autoPassNote)
    else TurnAction.pass "Invalid response format from model." (some autoPassNote)

/-- Embedding of normalizeSecondingResponse (prompts.ts). -/
def normalizeSecondingResponse (v : JsValue) : SecondingResponse :=
  match getParseErrorMessage v with
  | some msg => { second := false, rationale := "Model JSON parse error: " ++ msg }
  | none =>
    match jsGetField v "second" with
    | some (JsValue.jsBool b) =>
        { second := b
          rationale :=
            match nonEmptyTrimmed (jsStringField v "rationale") with
            | some r => r
            | none => "No rationale provided." }
    | _ => { second := false, rationale := "Invalid response format." }

/-- Embedding of normalizeVoteResponse (prompts.ts). -/
def normalizeVoteResponse (v : JsValue) : VoteResponse :=
  match getParseErrorMessage v with
  | some msg => { ballot := Ballot.abstain, rationale := "Model JSON parse error: " ++ msg }
  | none =>
    let rationale :=
      match nonEmptyTrimmed (jsStringField v "rationale") with
      | some r => r
      | none => "No rationale provided."
    if jsFieldIsStr v "ballot" "YES" then
      { ballot := Ballot.yes, rationale := rationale }
    else if jsFieldIsStr v "ballot" "NO" then
      { ballot := Ballot.no, rationale := rationale }
    else if jsFieldIsStr v "ballot" "ABSTAIN" then
      { ballot := Ballot.abstain, rationale := rationale }
    else { ballot := Ballot.abstain, rationale := "Invalid response format." }

/-- Embedding of normalizeLeaderElectionBallot (prompts.ts).  The member id
set iterates in declaration order, so Array.from(memberIds)[0] is the head of
the declared member id list. -/
def normalizeLeaderElectionBallot (v : JsValue) (memberIds : List String) :
    LeaderElectionBallot :=
  match getParseErrorMessage v with
  | some msg =>
      { candidateId := memberIds.headD ""
        rationale := "Model JSON parse error: " ++ msg }
  | none =>
    match jsStringField v "candidateId" with
    | some cid =>
        if cid ≠ "" ∧ cid ∈ memberIds then
          { candidateId := cid
            rationale :=
              match nonEmptyTrimmed (jsStringField v "rationale") with
              | some r => r
              | none => "No rationale provided." }
        else
          { candidateId := memberIds.headD ""
            rationale := "Invalid candidate. Defaulted to first member." }
    | none =>
        { candidateId := memberIds.headD ""
          rationale := "Invalid candidate. Defaulted to first member." }

/-- Outcome of one completeJson call against a model, seen by
completeJsonSafe: a decoded value, a JSON parse failure (message and raw
text), or a transport failure. -/
inductive ModelJsonOutcome where
  | parsed (v : JsValue)
  | parseFailure (message raw : String)
  | transportFailure (message : String)

/-- Embedding of CouncilOrchestrator.completeJsonSafe (orchestrator.ts): a
JsonResponseParseError is converted into the json_parse_error envelope and
returned as a success; any other failure is rethrown and aborts the
session. -/
def completeJsonSafe : ModelJsonOutcome → Except String JsValue
  | ModelJsonOutcome.parsed v => Except.ok v
  | ModelJsonOutcome.parseFailure message raw =>
      Except.ok (JsValue.jsObj
        [("__errorType", JsValue.jsStr "json_parse_error"),
         ("message", JsValue.jsStr message),
         ("raw", JsValue.jsStr (jsTake raw 800))])
  | ModelJsonOutcome.transportFailure message =>
      Except.error ("Model completion failed: " ++ message)

/-- Reads a field as a boolean, or none when absent or not a boolean. -/
def jsBoolField (v : JsValue) (key : String) : Option Bool :=
  match jsGetField v key with
  | some (JsValue.jsBool b) => some b
  | _ => none

/-- The validation condition normalizeTurnAction places on a non-envelope
payload: one of the three action shapes with its required non-empty string
fields. -/
def validTurnActionPayload (v : JsValue) : Bool :=
  (jsFieldIsStr v "action" "CONTRIBUTE" &&
      (nonEmptyTrimmed (jsStringField v "message")).isSome) ||
  (jsFieldIsStr v "action" "PASS" &&
      (nonEmptyTrimmed (jsStringField v "reason")).isSome) ||
  (jsFieldIsStr v "action" "CALL_VOTE" &&
      (nonEmptyTrimmed (jsStringField v "motionTitle")).isSome &&
      (nonEmptyTrimmed (jsStringField v "motionText")).isSome &&
      (nonEmptyTrimmed (jsStringField v "decisionIfPass")).isSome)

/-- The validation condition normalizeSecondingResponse places on a
non-envelope payload: the second field is a boolean. -/
def validSecondingPayload (v : JsValue) : Bool :=
  (jsBoolField v "second").isSome

/-- The validation condition normalizeVoteResponse places on a non-envelope
payload: the ballot field is one of the three ballot strings. -/
def validVotePayload (v : JsValue) : Bool :=
  jsFieldIsStr v "ballot" "YES" || jsFieldIsStr v "ballot" "NO" ||
    jsFieldIsStr v "ballot" "ABSTAIN"

/-- The validation condition normalizeLeaderElectionBallot places on a
non-envelope payload: candidateId is a truthy string naming a member. -/
def validElectionPayload (v : JsValue) (memberIds : List String) : Bool :=
  match jsStringField v "candidateId" with
  | some cid => !(cid == "") && memberIds.contains cid
  | none => false

/-- Embedding of CouncilOrchestrator.resolveTurnOrder (orchestrator.ts):
config.turnOrder when present, else the member declaration order. -/
def resolveTurnOrder (memberIds : List String) (configTurnOrder : Option (List String)) :
    List String :=
  configTurnOrder.getD memberIds

/-- The joined result of the motion vote fan-out in runDeliberationPhase
(orchestrator.ts): one normalized vote per member of the turn order, in turn
order.  Every member yields a ballot because normalizeVoteResponse is total
(parse failures become ABSTAIN). -/
def motionVotePairs (turnOrder : List String) (responses : String → JsValue) :
    List (String × VoteResponse) :=
  turnOrder.map (fun m => (m, normalizeVoteResponse (responses m)))

/-- The tally computed for a motion in runDeliberationPhase: computeVotePass
applied to the ballots of the full turn order. -/
def motionVoteOutcome (turnOrder : List String) (responses : String → JsValue)
    (governance : PhaseGovernanceConfig) : VotePassResult :=
  computeVotePass ((motionVotePairs turnOrder responses).map (fun p => p.2.ballot)) governance

/-- One step of the voting sub-state of runDeliberationPhase: a ballot being
collected from the fan-out (no event is appended there), a VOTE_CAST event, or
the VOTE_RESULT event. -/
inductive VoteStep where
  | collect (memberId : String) (vote : VoteResponse)
  | emitCast (memberId : String) (vote : VoteResponse)
  | emitResult (result : VotePassResult)
deriving DecidableEq, Repr

/-- Whether a step is a ballot collection. -/
def VoteStep.isCollect : VoteStep → Bool
  | VoteStep.collect _ _ => true
  | _ => false

/-- Whether a step appends an event to the log. -/
def VoteStep.isEmit : VoteStep → Bool
  | VoteStep.collect _ _ => false
  | _ => true

/-- The member of a VOTE_CAST step. -/
def voteCastMember : VoteStep → Option String
  | VoteStep.emitCast m _ => some m
  | _ => none

/-- The member of a ballot collection step. -/
def voteCollectMember : VoteStep → Option String
  | VoteStep.collect m _ => some m
  | _ => none

/-- Trace of the voting sub-state of runDeliberationPhase (orchestrator.ts):
Promise.all resolves the model calls in arrival order with no events appended,
then one VOTE_CAST per member is appended in turn order, then VOTE_RESULT.
The arrival list is the completion schedule of the parallel calls. -/
def runMotionVotingTrace (turnOrder arrival : List String) (responses : String → JsValue)
    (governance : PhaseGovernanceConfig) : List VoteStep :=
  (arrival.map (fun m => VoteStep.collect m (normalizeVoteResponse (responses m))))
    ++ ((motionVotePairs turnOrder responses).map (fun p => VoteStep.emitCast p.1 p.2))
    ++ [VoteStep.emitResult (motionVoteOutcome turnOrder responses governance)]

/-- One step of the seconding sub-state of runDeliberationPhase. -/
inductive SecondingStep where
  | collect (memberId : String) (response : SecondingResponse)
  | emitResponse (memberId : String) (response : SecondingResponse)
  | emitNotSeconded
  | emitSeconded (secondedBy : String)
deriving DecidableEq, Repr

/-- The member of a SECONDING_RESPONSE step. -/
def secondingResponseMember : SecondingStep → Option String
  | SecondingStep.emitResponse m _ => some m
  | _ => none

/-- The joined result of the seconding fan-out: one normalized response per
non-caller member, in non-caller turn order. -/
def secondingPairs (turnOrder : List String) (callerId : String)
    (responses : String → JsValue) : List (String × SecondingResponse) :=
  (turnOrder.filter (fun id => id ≠ callerId)).map
    (fun m => (m, normalizeSecondingResponse (responses m)))

/-- Trace of the seconding sub-state of runDeliberationPhase: parallel
collection in arrival order with no events, then one SECONDING_RESPONSE per
non-caller in turn order, then MOTION_SECONDED for the first non-caller in
turn order whose response is second = true, or MOTION_NOT_SECONDED. -/
def runSecondingTrace (turnOrder : List String) (callerId : String)
    (arrival : List String) (responses : String → JsValue) : List SecondingStep :=
  let pairs := secondingPairs turnOrder callerId responses
  (arrival.map (fun m => SecondingStep.collect m (normalizeSecondingResponse (responses m))))
    ++ (pairs.map (fun p => SecondingStep.emitResponse p.1 p.2))
    ++ (match (pairs.find? (fun p => p.2.second)).map Prod.fst with
        | none => [SecondingStep.emitNotSeconded]
        | some s => [SecondingStep.emitSeconded s])

/-- One event of electLeader (orchestrator.ts). -/
inductive ElectionStep where
  | emitBallot (memberId : String) (ballot : LeaderElectionBallot)
  | emitElected (winner : String)
deriving DecidableEq, Repr

/-- The member of a LEADER_ELECTION_BALLOT step. -/
def electionBallotMember : ElectionStep → Option String
  | ElectionStep.emitBallot m _ => some m
  | _ => none

/-- Whether a step is the LEADER_ELECTED event. -/
def ElectionStep.isElected : ElectionStep → Bool
  | ElectionStep.emitElected _ => true
  | _ => false

/-- Number of election ballots naming a candidate. -/
def leaderVotesFor (ballots : List LeaderElectionBallot) (candidateId : String) : ℕ :=
  (ballots.filter (fun b => b.candidateId == candidateId)).length

/-- The winner computed by electLeader: tally keys in first-occurrence order,
pre-sorted lexicographically by sortByStableOrder, then stably re-sorted by
votes descending with ascending id tiebreak; the head wins, defaulting to the
first member. -/
def electWinner (memberIds : List String) (responses : String → JsValue) : String :=
  let ballots := memberIds.map (fun m => normalizeLeaderElectionBallot (responses m) memberIds)
  let keys := (ballots.map (fun b => b.candidateId)).eraseDups
  let sortedKeys := keys.mergeSort (fun a b => a ≤ b)
  let ranked := sortedKeys.mergeSort (fun a b =>
    decide (leaderVotesFor ballots b < leaderVotesFor ballots a ∨
      (leaderVotesFor ballots a = leaderVotesFor ballots b ∧ a ≤ b)))
  ranked.headD (memberIds.headD "")

/-- Trace of electLeader (orchestrator.ts): the LEADER_ELECTION_BALLOT events
are appended inside the Promise.all callbacks, hence in arrival order of the
model responses; the single LEADER_ELECTED event follows the join. -/
def electLeaderTrace (memberIds arrival : List String) (responses : String → JsValue) :
    List ElectionStep :=
  (arrival.map (fun m =>
      ElectionStep.emitBallot m (normalizeLeaderElectionBallot (responses m) memberIds)))
    ++ [ElectionStep.emitElected (electWinner memberIds responses)]

/-- Concrete council used to exhibit the leader-election ordering behaviour. -/
def exMembers : List String := ["alpha", "beta", "gamma"]

/-- A completion schedule in which the second member answers first. -/
def exArrival : List String := ["beta", "alpha", "gamma"]

/-- A response oracle: every member casts a well-formed ballot for alpha. -/
def exResponses : String → JsValue := fun _ =>
  JsValue.jsObj [("candidateId", JsValue.jsStr "alpha"),
    ("rationale", JsValue.jsStr "steady hand")]


/-- Phase transition trigger, from PhaseTransitionTrigger in src/types.ts. -/
inductive PhaseTransitionTrigger where
  | majorityVote
  | roundLimit
  | always
deriving DecidableEq, Repr

/-- Phase transition configuration, from PhaseTransitionConfig in src/types.ts.
The source fields named when and to are modelled as trigger and toPhaseId,
since both words are reserved in Lean. -/
structure PhaseTransitionConfig where
  toPhaseId : String
  trigger : PhaseTransitionTrigger
  reason : Option String
  priority : ℕ
deriving DecidableEq, Repr

/-- Phase fallback action, from PhaseFallbackAction in src/types.ts. -/
inductive PhaseFallbackAction where
  | endSession
  | transition
deriving DecidableEq, Repr

/-- Phase fallback configuration, from PhaseFallbackConfig in src/types.ts. -/
structure PhaseFallbackConfig where
  resolution : String
  action : PhaseFallbackAction
  transitionToPhaseId : Option String
deriving DecidableEq, Repr

/-- How a phase ended, from the endedBy field of SessionResult. -/
inductive EndedBy where
  | majorityVote
  | roundLimit
deriving DecidableEq, Repr

/-- Number.MAX_SAFE_INTEGER, the priority of the synthetic fallback
transition. -/
def maxSafeInteger : ℕ := 2 ^ 53 - 1

/-- The trigger matching a phase outcome in resolveNextPhaseTransition. -/
def triggerFor : EndedBy → PhaseTransitionTrigger
  | EndedBy.majorityVote => PhaseTransitionTrigger.majorityVote
  | EndedBy.roundLimit => PhaseTransitionTrigger.roundLimit

/-- The comparator of the transition sort in resolveNextPhaseTransition:
priority ascending, then target id ascending. -/
def transitionLe (a b : PhaseTransitionConfig) : Bool :=
  decide (a.priority < b.priority ∨ (a.priority = b.priority ∧ a.toPhaseId ≤ b.toPhaseId))

/-- Eligibility predicate of the transition filter: trigger ALWAYS, or the
trigger matching the phase outcome. -/
def eligibleTransition (endedBy : EndedBy) (t : PhaseTransitionConfig) : Bool :=
  t.trigger == PhaseTransitionTrigger.always || t.trigger == triggerFor endedBy

/-- Embedding of CouncilOrchestrator.resolveNextPhaseTransition
(orchestrator.ts).  Array.prototype.sort is stable, so sorting is modelled
with a stable merge sort under the same comparator; the JS truthiness test on
transitionToPhaseId also rejects the empty string. -/
def resolveNextPhaseTransition (transitions : List PhaseTransitionConfig)
    (fallback : PhaseFallbackConfig) (endedBy : EndedBy) :
    Option PhaseTransitionConfig :=
  let candidates :=
    (transitions.filter (eligibleTransition endedBy)).mergeSort transitionLe
  match candidates.head? with
  | some t => some t
  | none =>
    if endedBy = EndedBy.roundLimit ∧ fallback.action = PhaseFallbackAction.transition then
      match fallback.transitionToPhaseId with
      | some tid =>
          if tid ≠ "" then
            some { toPhaseId := tid
                   trigger := PhaseTransitionTrigger.roundLimit
                   reason := some "fallback_transition"
                   priority := maxSafeInteger }
          else none
      | none => none
    else none


/-- A critical blocker entry, from DocumentCriticalBlocker in orchestrator.ts.
The source field named section is modelled as sectionName; severity is the
string critical or major as assigned by the code. -/
structure DocumentCriticalBlocker where
  id : String
  sectionName : String
  problem : String
  impact : String
  requiredChange : String
  severity : String
deriving DecidableEq, Repr

/-- A reviewer feedback document, from DocumentReviewFeedback in
orchestrator.ts. -/
structure DocumentReviewFeedback where
  memberId : String
  criticalBlockers : List DocumentCriticalBlocker
  suggestedChanges : List String
deriving DecidableEq, Repr

/-- Array.isArray dispatch: the items of an array value, else the empty
list. -/
def jsArrayItems : JsValue → List JsValue
  | JsValue.jsArr items => items
  | _ => []

/-- The per-entry body of the criticalBlockers map in normalizeDocumentFeedback:
entries that are not objects, or miss a non-empty section, problem, impact or
requiredChange, are dropped (null in the source, none here). -/
def normalizeCriticalBlocker (index : ℕ) (v : JsValue) : Option DocumentCriticalBlocker :=
  if !isObjectLike v then none
  else
    let severity := if jsFieldIsStr v "severity" "major" then "major" else "critical"
    let entryId :=
      match nonEmptyTrimmed (jsStringField v "id") with
      | some s => s
      | none => "B" ++ toString (index + 1)
    let sectionName := (jsStringField v "section").elim "" jsTrim
    let problem := (jsStringField v "problem").elim "" jsTrim
    let impact := (jsStringField v "impact").elim "" jsTrim
    let requiredChange := (jsStringField v "requiredChange").elim "" jsTrim
    if sectionName = "" ∨ problem = "" ∨ impact = "" ∨ requiredChange = "" then none
    else some { id := entryId
                sectionName := sectionName
                problem := problem
                impact := impact
                requiredChange := requiredChange
                severity := severity }

/-- The synthetic blocker inserted when the feedback payload is not a JS
object. -/
def syntheticB0 : DocumentCriticalBlocker :=
  { id := "B0"
    sectionName := "unknown"
    problem := "Feedback response was not valid JSON object."
    impact := "Leader cannot reliably resolve reviewer blockers."
    requiredChange := "Re-run review with strict JSON schema compliance."
    severity := "critical" }

/-- Embedding of CouncilOrchestrator.normalizeDocumentFeedback
(orchestrator.ts).  The guard is the JS test raw truthy and typeof raw equal
to object: the json_parse_error envelope is itself an object and therefore
does not take the synthetic-B0 branch. -/
def normalizeDocumentFeedback (raw : JsValue) (memberId : String) :
    DocumentReviewFeedback :=
  if !isObjectLike raw then
    { memberId := memberId
      criticalBlockers := [syntheticB0]
      suggestedChanges := [] }
  else
    let criticalBlockersRaw := (jsGetField raw "criticalBlockers").elim [] jsArrayItems
    let criticalBlockers :=
      ((criticalBlockersRaw.enum.map
        (fun p => normalizeCriticalBlocker p.1 p.2)).filterMap (fun x => x)).take 5
    let suggestedChanges :=
      ((((jsGetField raw "suggestedChanges").elim [] jsArrayItems).filterMap
          (fun x => match x with | JsValue.jsStr s => some s | _ => none)).map jsTrim
        |>.filter (fun s => s ≠ "")).take 6
    { memberId := memberId
      criticalBlockers := criticalBlockers
      suggestedChanges := suggestedChanges }

/-- The governance hard-coded for document approval votes in
runDocumentApprovalVote: threshold 0.5 and abstain counted as NO over the full
council. -/
def documentApprovalGovernance : PhaseGovernanceConfig :=
  { requireSeconding := true, majorityThreshold := 1 / 2, abstainCountsAsNo := true }

/-- The joined ballots of the approval vote at a revision: one normalized vote
per member of the full turn order. -/
def approvalVotePairs (turnOrder : List String) (voteOracle : ℕ → String → JsValue)
    (revision : ℕ) : List (String × VoteResponse) :=
  turnOrder.map (fun m => (m, normalizeVoteResponse (voteOracle revision m)))

/-- The tally of the approval vote at a revision, from runDocumentApprovalVote. -/
def approvalVoteResult (turnOrder : List String) (voteOracle : ℕ → String → JsValue)
    (revision : ℕ) : VotePassResult :=
  computeVotePass ((approvalVotePairs turnOrder voteOracle revision).map (fun p => p.2.ballot))
    documentApprovalGovernance

/-- Embedding of collectDocumentFeedback (orchestrator.ts): every voter whose
ballot was not YES reviews the draft; each response is normalized. -/
def collectDocumentFeedback (votePairs : List (String × VoteResponse))
    (responses : String → JsValue) : List DocumentReviewFeedback :=
  ((votePairs.filter (fun p => p.2.ballot ≠ Ballot.yes)).map (fun p => p.1)).map
    (fun memberId => normalizeDocumentFeedback (responses memberId) memberId)

/-- A file written by the documentation approval loop. -/
inductive DocArtifact where
  | draftFile (revision : ℕ) (content : String)
  | approvedFile (content : String)
  | reviewFile (revision : ℕ) (feedback : List DocumentReviewFeedback)
  | unapprovedFile (content : String)
  | unresolvedBlockersFile (blockers : List (String × DocumentCriticalBlocker))
deriving DecidableEq, Repr

/-- Whether an artifact is a persisted draft attempt. -/
def isDraftArtifact : DocArtifact → Bool
  | DocArtifact.draftFile _ _ => true
  | _ => false

/-- The flattening of the latest feedback into the unresolved-blockers
artifact at loop exhaustion. -/
def unresolvedBlockersOf (feedback : List DocumentReviewFeedback) :
    List (String × DocumentCriticalBlocker) :=
  feedback.flatMap (fun f => f.criticalBlockers.map (fun b => (f.memberId, b)))

/-- The body of the revision loop of runDocumentationApprovalLoop
(orchestrator.ts), with the model abstracted as oracles per call site: the
vote and feedback oracles are indexed by revision and member, and the revise
oracle gives the leader draft text produced after the feedback of a revision.
remaining counts the loop iterations left out of maxRevisionRounds + 1. -/
def docLoopGo (turnOrder : List String) (voteOracle : ℕ → String → JsValue)
    (feedbackOracle : ℕ → String → JsValue) (reviseOracle : ℕ → String)
    (revision : ℕ) (draft : String) (latestFeedback : List DocumentReviewFeedback) :
    ℕ → List DocArtifact × Bool
  | 0 =>
      ([DocArtifact.unapprovedFile draft,
        DocArtifact.unresolvedBlockersFile (unresolvedBlockersOf latestFeedback)], false)
  | Nat.succ rem =>
      if (approvalVoteResult turnOrder voteOracle revision).passed then
        ([DocArtifact.draftFile revision draft, DocArtifact.approvedFile draft], true)
      else if rem = 0 then
        ([DocArtifact.draftFile revision draft, DocArtifact.unapprovedFile draft,
          DocArtifact.unresolvedBlockersFile (unresolvedBlockersOf latestFeedback)], false)
      else
        let feedback := collectDocumentFeedback
          (approvalVotePairs turnOrder voteOracle revision) (feedbackOracle revision)
        let rest := docLoopGo turnOrder voteOracle feedbackOracle reviseOracle
          (revision + 1) (jsTrim (reviseOracle revision)) feedback rem
        (DocArtifact.draftFile revision draft :: DocArtifact.reviewFile revision feedback
          :: rest.1, rest.2)

/-- Embedding of runDocumentationApprovalLoop (orchestrator.ts): revisions
run from 1 to maxRevisionRounds + 1, starting from the trimmed initial
draft. -/
def runDocumentationApprovalLoop (turnOrder : List String)
    (voteOracle : ℕ → String → JsValue) (feedbackOracle : ℕ → String → JsValue)
    (reviseOracle : ℕ → String) (initialDraft : String) (maxRevisionRounds : ℕ) :
    List DocArtifact × Bool :=
  docLoopGo turnOrder voteOracle feedbackOracle reviseOracle 1 (jsTrim initialDraft) []
    (maxRevisionRounds + 1)


/-- Memory record kinds, from the MemoryKind union in memoryStore.ts. -/
inductive MemoryKind where
  | preference
  | constraint
  | decision
  | assumption
  | risk_pattern
  | lesson
  | open_loop
  | outcome
deriving DecidableEq, Repr

/-- Memory record status, from the MemoryStatus union in memoryStore.ts. -/
inductive MemoryStatus where
  | active
  | resolved
  | superseded
  | stale
deriving DecidableEq, Repr

/-- An evidence reference, from EvidenceRef in memoryStore.ts. -/
structure EvidenceRef where
  sessionId : String
  eventType : Option String
  artifactPath : Option String
  note : Option String
deriving DecidableEq, Repr

/-- A durable memory record, from MemoryRecord in memoryStore.ts. -/
structure MemoryRecord where
  id : String
  kind : MemoryKind
  status : MemoryStatus
  summary : String
  detail : Option String
  tags : List String
  confidence : ℚ
  importance : ℕ
  createdAt : String
  updatedAt : String
  expiresAt : Option String
  resolvedAt : Option String
  supersedes : Option (List String)
  evidence : List EvidenceRef
deriving DecidableEq, Repr

/-- A per-member session digest, from SessionDigest in memoryStore.ts. -/
structure SessionDigest where
  sessionId : String
  timestamp : String
  finalResolution : String
  stance : String
deriving DecidableEq, Repr

/-- The derived prompt context, from PromptContextV2 in memoryStore.ts. -/
structure PromptContextV2 where
  constraints : List String
  keyDecisions : List String
  topRisks : List String
  openLoops : List String
  preferences : List String
  antiPatterns : List String
  updatedAt : String
deriving DecidableEq, Repr

/-- A member memory document, from MemberMemoryV2 in memoryStore.ts (the
constant version tag is omitted). -/
structure MemberMemoryV2 where
  memberId : String
  records : List MemoryRecord
  promptContext : PromptContextV2
  recentSessions : List SessionDigest
  createdAt : String
  updatedAt : String
deriving Repr

/-- A council session digest, from CouncilSessionDigest in memoryStore.ts. -/
structure CouncilSessionDigest where
  sessionId : String
  timestamp : String
  leaderId : String
  endedBy : EndedBy
  finalResolution : String
  outputType : String
deriving DecidableEq, Repr

/-- A council memory document, from CouncilMemoryV2 in memoryStore.ts. -/
structure CouncilMemoryV2 where
  councilName : String
  globalDecisions : List MemoryRecord
  crossAgentLessons : List MemoryRecord
  sessions : List CouncilSessionDigest
  createdAt : String
  updatedAt : String
deriving Repr

/-- The execution brief of a leader summary, from src/types.ts. -/
structure ExecutionBrief where
  objective : String
  recommendedExecutorProfile : String
  steps : List String
  risks : List String
  acceptanceCriteria : List String
deriving DecidableEq, Repr

/-- A leader summary, from LeaderSummary in src/types.ts. -/
structure LeaderSummary where
  summaryMarkdown : String
  finalResolution : String
  requiresExecution : Bool
  executionBrief : Option ExecutionBrief
deriving DecidableEq, Repr

/-- An event of the session log, from CouncilEvent in src/types.ts; the
payload is an opaque JSON value. -/
structure CouncilEvent where
  id : String
  sessionId : String
  timestamp : String
  phase : String
  type : String
  round : ℕ
  turnIndex : ℕ
  actorId : Option String
  payload : JsValue

/-- Input of MemoryStore.recordSession, from RecordSessionInput in
memoryStore.ts. -/
structure RecordSessionInput where
  sessionId : String
  humanPrompt : String
  leaderId : String
  endedBy : EndedBy
  finalResolution : String
  outputType : String
  leaderSummary : LeaderSummary
  events : List CouncilEvent
  executionApproved : Bool

/-- The bound constants of memoryStore.ts. -/
def MEMBER_RECORD_LIMIT : ℕ := 80

/-- Per-member recent-session digest bound. -/
def SESSION_DIGEST_LIMIT : ℕ := 40

/-- Size of the recency window of the prompt context. -/
def PROMPT_CONTEXT_SESSION_WINDOW : ℕ := 25

/-- Council session digest bound. -/
def COUNCIL_SESSION_LIMIT : ℕ := 50

/-- Council record bound. -/
def COUNCIL_RECORD_LIMIT : ℕ := 80

/-- The JSON wire form of an EndedBy value. -/
def endedByStr : EndedBy → String
  | EndedBy.majorityVote => "MAJORITY_VOTE"
  | EndedBy.roundLimit => "ROUND_LIMIT"

/-- Embedding of the JS trimEnd method. -/
def jsTrimEnd (s : String) : String :=
  String.mk ((dropLeadingWs s.data.reverse).reverse)

/-- Embedding of the JS toLowerCase method, character by character. -/
def jsToLower (s : String) : String :=
  String.mk (s.data.map Char.toLower)

/-- Whether pat occurs as a contiguous substring of the character list, the
JS String includes method. -/
def containsChars (pat : List Char) : List Char → Bool
  | [] => pat.isEmpty
  | c :: rest => pat.isPrefixOf (c :: rest) || containsChars pat rest

/-- Embedding of the JS String includes method. -/
def jsIncludes (s pat : String) : Bool :=
  containsChars pat.data s.data

/-- Collapses every whitespace run into a single space, the regex replace of
normalizeInline; the flag records whether the previous character was part of
a run. -/
def collapseWsGo : Bool → List Char → List Char
  | _, [] => []
  | prevWs, c :: cs =>
      if c.isWhitespace then
        if prevWs then collapseWsGo true cs
        else ' ' :: collapseWsGo true cs
      else c :: collapseWsGo false cs

/-- Embedding of MemoryStore.normalizeInline (memoryStore.ts): collapse
whitespace runs to single spaces, then trim. -/
def normalizeInline (s : String) : String :=
  jsTrim (String.mk (collapseWsGo false s.data))

/-- Embedding of MemoryStore.clamp (memoryStore.ts). -/
def clamp (value : String) (maxChars : ℕ) : String :=
  let normalized := normalizeInline value
  if normalized.data.length ≤ maxChars then normalized
  else jsTrimEnd (String.mk (normalized.data.take (maxChars - 3))) ++ "..."

/-- Embedding of MemoryStore.getMemberMessages (memoryStore.ts). -/
def getMemberMessages (events : List CouncilEvent) (memberId : String) : List String :=
  (((events.filter (fun e => e.type == "MESSAGE_CONTRIBUTED" &&
      e.actorId == some memberId)).map
    (fun e =>
      match jsStringField e.payload "message" with
      | some m => normalizeInline m
      | none => "")).filter (fun v => !(v == ""))).map (fun v => clamp v 200)

/-- Embedding of MemoryStore.countParseFallbacks (memoryStore.ts). -/
def countParseFallbacks (events : List CouncilEvent) (memberId : Option String) : ℕ :=
  (events.filter (fun e =>
    e.type == "TURN_ACTION" &&
    (match memberId with
     | some m => e.actorId == some m
     | none => true) &&
    jsFieldIsStr e.payload "action" "PASS" &&
    (match jsStringField e.payload "reason" with
     | some r => jsIncludes (jsToLower r) "json parse error"
     | none => false))).length

/-- First-occurrence key deduplication in JS Map insertion order; seen
accumulates the keys already produced. -/
def dedupKeysAux (seen : List String) : List String → List String
  | [] => []
  | k :: rest =>
      if seen.contains k then dedupKeysAux seen rest
      else k :: dedupKeysAux (k :: seen) rest

/-- The key order of a JS Map built by repeated set calls: first-occurrence
order. -/
def dedupKeys (l : List String) : List String :=
  dedupKeysAux [] l

/-- Map-based record deduplication of pruneRecords: keys iterate in
first-occurrence order and carry the last record written for each id. -/
def dedupById (records : List MemoryRecord) : List MemoryRecord :=
  (dedupKeys (records.map (fun r => r.id))).filterMap
    (fun i => records.reverse.find? (fun r => r.id == i))

/-- The record sort comparator of pruneRecords: importance descending, then
updatedAt descending. -/
def recordLe (a b : MemoryRecord) : Bool :=
  decide (b.importance < a.importance ∨
    (a.importance = b.importance ∧ b.updatedAt ≤ a.updatedAt))

/-- Embedding of MemoryStore.pruneRecords (memoryStore.ts): deduplicate by
id, sort stably by (importance desc, updatedAt desc), keep the top limit. -/
def pruneRecords (records : List MemoryRecord) (limit : ℕ) : List MemoryRecord :=
  ((dedupById records).mergeSort recordLe).take limit

/-- The deduplication key of an evidence reference in mergeEvidence. -/
def evidenceKey (e : EvidenceRef) : String :=
  e.sessionId ++ "|" ++ e.eventType.getD "" ++ "|" ++ e.artifactPath.getD "" ++ "|"
    ++ e.note.getD ""

/-- Embedding of MemoryStore.mergeEvidence (memoryStore.ts): concatenate,
deduplicate on the composite key keeping the last value, keep the last 8. -/
def mergeEvidence (previous incoming : List EvidenceRef) : List EvidenceRef :=
  let merged := previous ++ incoming
  let dedup := (dedupKeys (merged.map evidenceKey)).filterMap
    (fun k => merged.reverse.find? (fun e => evidenceKey e == k))
  dedup.drop (dedup.length - 8)

/-- Embedding of MemoryStore.upsertRecord (memoryStore.ts): replace the first
record with the incoming id in place, preserving createdAt and merging
evidence; append when absent.  The session upserts never carry expiresAt or
supersedes, which the object spread would preserve from the previous record;
no code path ever writes those fields, so both sides are always none. -/
def upsertRecord : List MemoryRecord → MemoryRecord → List MemoryRecord
  | [], incoming => [incoming]
  | r :: rest, incoming =>
      if r.id == incoming.id then
        { incoming with
          createdAt := r.createdAt
          evidence := mergeEvidence r.evidence incoming.evidence } :: rest
      else r :: upsertRecord rest incoming

/-- The recency scoping filter of MemoryStore.buildPromptContext
(memoryStore.ts): a record stays in scope when its evidence list is empty or
when some evidence ref belongs to the 25 most recent sessions. -/
def promptScopedRecords (records : List MemoryRecord)
    (recentSessions : List SessionDigest) : List MemoryRecord :=
  let activeSessionIds :=
    (recentSessions.take PROMPT_CONTEXT_SESSION_WINDOW).map (fun s => s.sessionId)
  records.filter (fun record =>
    record.evidence.isEmpty ||
      record.evidence.any (fun item => activeSessionIds.contains item.sessionId))

/-- Embedding of MemoryStore.buildPromptContext (memoryStore.ts).  The clock
is passed explicitly. -/
def buildPromptContext (records : List MemoryRecord)
    (recentSessions : List SessionDigest) (now : String) : PromptContextV2 :=
  let scopedRecords := promptScopedRecords records recentSessions
  let pick := fun (kind : MemoryKind) (limit : ℕ) =>
    ((scopedRecords.filter (fun r => r.kind == kind &&
      r.status == MemoryStatus.active)).take limit).map (fun r => r.summary)
  { constraints := pick MemoryKind.constraint 4
    keyDecisions := pick MemoryKind.decision 5
    topRisks := ((pick MemoryKind.risk_pattern 3) ++ (pick MemoryKind.assumption 2)).take 4
    openLoops := pick MemoryKind.open_loop 4
    preferences := pick MemoryKind.preference 3
    antiPatterns := pick MemoryKind.lesson 3
    updatedAt := now }

/-- Whether a summary string appears anywhere in the derived prompt
context. -/
def contributesToContext (ctx : PromptContextV2) (s : String) : Bool :=
  ctx.constraints.contains s || ctx.keyDecisions.contains s || ctx.topRisks.contains s ||
    ctx.openLoops.contains s || ctx.preferences.contains s || ctx.antiPatterns.contains s

/-- Embedding of MemoryStore.applySessionToMemberMemory (memoryStore.ts); the
clock is passed explicitly as now. -/
def applySessionToMemberMemory (memory : MemberMemoryV2) (memberId : String)
    (input : RecordSessionInput) (now : String) : MemberMemoryV2 :=
  let memberMessages := getMemberMessages input.events memberId
  let records1 := upsertRecord memory.records
    { id := "decision:" ++ input.sessionId
      kind := MemoryKind.decision
      status := MemoryStatus.active
      summary := clamp input.finalResolution 220
      detail := some (clamp ("Session result for task \"" ++ input.humanPrompt
        ++ "\". Ended by " ++ endedByStr input.endedBy ++ ". Leader: "
        ++ input.leaderId ++ ".") 800)
      tags := ["resolution", "session"]
      confidence := 9 / 10
      importance := 5
      createdAt := now
      updatedAt := now
      expiresAt := none
      resolvedAt := none
      supersedes := none
      evidence := [⟨input.sessionId, some "LEADER_SUMMARY", some "leader-summary.md", none⟩] }
  let records2 := upsertRecord records1
    { id := "outcome:" ++ input.sessionId ++ ":" ++ memberId
      kind := MemoryKind.outcome
      status := MemoryStatus.active
      summary := clamp
        (if memberMessages.length > 0 then
          "Stance this session: " ++ (memberMessages.getLast?.getD "")
        else "No direct contribution captured from this member in this session.") 220
      detail := some (clamp
        (if memberMessages.length > 0 then
          "Captured " ++ toString memberMessages.length ++ " contribution(s) from "
            ++ memberId ++ "."
        else "Member " ++ memberId ++ " did not contribute MESSAGE_CONTRIBUTED content.")
        800)
      tags := ["stance", "member", memberId]
      confidence := if memberMessages.length > 0 then 4 / 5 else 11 / 20
      importance := 3
      createdAt := now
      updatedAt := now
      expiresAt := none
      resolvedAt := none
      supersedes := none
      evidence := [⟨input.sessionId, some "MESSAGE_CONTRIBUTED", none, none⟩] }
  let parseFallbackCount := countParseFallbacks input.events (some memberId)
  let records3 :=
    if parseFallbackCount > 0 then
      upsertRecord records2
        { id := "risk_pattern:parse_fallback:" ++ memberId
          kind := MemoryKind.risk_pattern
          status := MemoryStatus.active
          summary := clamp (toString parseFallbackCount
            ++ " turn action(s) used JSON parse fallback this session.") 220
          detail := some (clamp
            ("Model responses failed strict JSON parsing and were converted into PASS "
              ++ "actions. Keep outputs strictly schema-compliant.") 800)
          tags := ["model-output", "json", "reliability", memberId]
          confidence := 19 / 20
          importance := 4
          createdAt := now
          updatedAt := now
          expiresAt := none
          resolvedAt := none
          supersedes := none
          evidence := [⟨input.sessionId, some "TURN_ACTION", none, none⟩] }
    else records2
  let records4 :=
    if input.endedBy = EndedBy.roundLimit then
      upsertRecord records3
        { id := "open_loop:consensus:" ++ input.sessionId
          kind := MemoryKind.open_loop
          status := MemoryStatus.active
          summary := "No majority resolution reached before round limit."
          detail := some (clamp
            ("Re-enter this topic with a narrower decision scope or a pre-committed "
              ++ "tie-break process to force convergence.") 800)
          tags := ["consensus", "process", "follow-up"]
          confidence := 9 / 10
          importance := 4
          createdAt := now
          updatedAt := now
          expiresAt := none
          resolvedAt := none
          supersedes := none
          evidence := [⟨input.sessionId, some "ROUND_LIMIT_REACHED", none, none⟩] }
    else records3
  let records5 :=
    if input.leaderSummary.requiresExecution then
      upsertRecord records4
        { id := "open_loop:execution:" ++ input.sessionId
          kind := MemoryKind.open_loop
          status := if input.executionApproved then MemoryStatus.resolved
            else MemoryStatus.active
          summary := clamp
            (if input.executionApproved then "Execution approved."
             else "Execution pending human approval.") 220
          detail := some (clamp
            ((input.leaderSummary.executionBrief.map (fun b => b.objective)).getD
              "Execution brief present in leader summary.") 800)
          tags := ["execution", "handoff"]
          confidence := 19 / 20
          importance := 5
          createdAt := now
          updatedAt := now
          expiresAt := none
          resolvedAt := if input.executionApproved then some now else none
          supersedes := none
          evidence := [⟨input.sessionId, some "SESSION_CLOSED", some "execution-handoff.json", none⟩] }
    else records4
  let recentSessions :=
    ({ sessionId := input.sessionId
       timestamp := now
       finalResolution := clamp input.finalResolution 300
       stance := clamp
         (if memberMessages.length > 0 then memberMessages.getLast?.getD ""
          else "No direct member contribution recorded.") 220 } ::
      memory.recentSessions.filter
        (fun item => !(item.sessionId == input.sessionId))).take SESSION_DIGEST_LIMIT
  let compactRecords := pruneRecords records5 MEMBER_RECORD_LIMIT
  { memory with
    records := compactRecords
    promptContext := buildPromptContext compactRecords recentSessions now
    recentSessions := recentSessions
    updatedAt := now }

/-- Embedding of MemoryStore.applySessionToCouncilMemory (memoryStore.ts). -/
def applySessionToCouncilMemory (council : CouncilMemoryV2)
    (input : RecordSessionInput) (now : String) : CouncilMemoryV2 :=
  let globalDecisions := upsertRecord council.globalDecisions
    { id := "decision:" ++ input.sessionId
      kind := MemoryKind.decision
      status := MemoryStatus.active
      summary := clamp input.finalResolution 220
      detail := some (clamp ("Council resolution for task \"" ++ input.humanPrompt
        ++ "\" (ended by " ++ endedByStr input.endedBy ++ ", leader "
        ++ input.leaderId ++ ").") 800)
      tags := ["resolution", "council"]
      confidence := 9 / 10
      importance := 5
      createdAt := now
      updatedAt := now
      expiresAt := none
      resolvedAt := none
      supersedes := none
      evidence := [⟨input.sessionId, some "LEADER_SUMMARY", some "leader-summary.md", none⟩] }
  let parseFallbackCount := countParseFallbacks input.events none
  let crossAgentLessons :=
    if parseFallbackCount > 0 then
      upsertRecord council.crossAgentLessons
        { id := "lesson:json_parse_fallback"
          kind := MemoryKind.lesson
          status := MemoryStatus.active
          summary := clamp ("Session " ++ input.sessionId ++ " recorded "
            ++ toString parseFallbackCount
            ++ " fallback PASS conversion(s) from invalid JSON output.") 220
          detail := some (clamp
            ("Strict JSON contracts are brittle under long prompts. Keep schema "
              ++ "instructions explicit and bounded to reduce conversion-to-PASS failures.")
            800)
          tags := ["model-output", "json", "quality"]
          confidence := 19 / 20
          importance := 4
          createdAt := now
          updatedAt := now
          expiresAt := none
          resolvedAt := none
          supersedes := none
          evidence := [⟨input.sessionId, some "TURN_ACTION", none, none⟩] }
    else council.crossAgentLessons
  let sessions :=
    ({ sessionId := input.sessionId
       timestamp := now
       leaderId := input.leaderId
       endedBy := input.endedBy
       finalResolution := clamp input.finalResolution 300
       outputType := input.outputType } ::
      council.sessions.filter
        (fun item => !(item.sessionId == input.sessionId))).take COUNCIL_SESSION_LIMIT
  { council with
    globalDecisions := pruneRecords globalDecisions COUNCIL_RECORD_LIMIT
    crossAgentLessons := pruneRecords crossAgentLessons COUNCIL_RECORD_LIMIT
    sessions := sessions
    updatedAt := now }

/-- A retained active outcome record with no evidence, used to exhibit the
prompt-context bucket behaviour. -/
def exOutcomeRecord : MemoryRecord :=
  { id := "outcome:s1:alpha"
    kind := MemoryKind.outcome
    status := MemoryStatus.active
    summary := "stance of alpha"
    detail := none
    tags := []
    confidence := 1 / 2
    importance := 3
    createdAt := "t0"
    updatedAt := "t0"
    expiresAt := none
    resolvedAt := none
    supersedes := none
    evidence := [] }

lemma count_yes_eq_filter_length (ballots : List Ballot) :
    ballots.count Ballot.yes = (ballots.filter (fun b => b == Ballot.yes)).length := by
  induction ballots with
  | nil => rfl
  | cons b bs ih =>
      cases b <;> simp [List.count_cons, List.filter_cons, ih]

lemma count_no_eq_filter_length (ballots : List Ballot) :
    ballots.count Ballot.no = (ballots.filter (fun b => b == Ballot.no)).length := by
  induction ballots with
  | nil => rfl
  | cons b bs ih =>
      cases b <;> simp [List.count_cons, List.filter_cons, ih]

lemma floor_ratCast_half (total : ℕ) : ⌊(total : ℚ) / 2⌋ = ((total / 2 : ℕ) : ℤ) := by
  rw [Int.floor_eq_iff]
  push_cast
  constructor
  · rw [le_div_iff₀ (by norm_num)]
    exact_mod_cast Nat.div_mul_le_self total 2
  · rw [div_lt_iff₀ (by norm_num)]
    have h : total < (total / 2 + 1) * 2 := by omega
    exact_mod_cast h

/-- C2: for every ballot list and governance configuration, computeVotePass
returns yesVotes equal to the count of YES ballots, noVotesEffective equal to
total minus yesVotes when abstainCountsAsNo is true and to the count of NO
ballots otherwise, and passed exactly when yesVotes reaches the required
number of YES votes, which is floor(total / 2) + 1 at threshold 0.5 and
ceil(total * threshold) otherwise. -/
theorem computeVotePass_matches_spec (ballots : List Ballot)
    (governance : PhaseGovernanceConfig) :
    (computeVotePass ballots governance).yesVotes = ballots.count Ballot.yes ∧
    (computeVotePass ballots governance).noVotesEffective =
      (if governance.abstainCountsAsNo then ballots.length - ballots.count Ballot.yes
       else ballots.count Ballot.no) ∧
    ((computeVotePass ballots governance).passed = true ↔
      (ballots.count Ballot.yes : ℤ) ≥
        requiredYesVotesSpec ballots.length governance.majorityThreshold) := by
  refine ⟨?_, ?_, ?_⟩
  · simp [computeVotePass, count_yes_eq_filter_length]
  · simp [computeVotePass, count_yes_eq_filter_length, count_no_eq_filter_length]
  · simp only [computeVotePass, requiredYesVotesSpec, floor_ratCast_half,
      count_yes_eq_filter_length, decide_eq_true_eq]


lemma motionVotePairs_length (turnOrder : List String) (responses : String → JsValue) :
    (motionVotePairs turnOrder responses).length = turnOrder.length := by
  simp [motionVotePairs]

/-- C1: in a phase whose governance has threshold 0.5 and abstainCountsAsNo
true, a motion passes exactly when the YES count reaches floor(N / 2) + 1 for
N the full council size; moreover the vote fan-out always produces exactly one
ballot per council member, so the denominator of the pass computation is the
council size and never a smaller number of returned ballots. -/
theorem motion_vote_full_denominator (memberIds : List String)
    (configTurnOrder : Option (List String)) (responses : String → JsValue)
    (governance : PhaseGovernanceConfig)
    (hperm : ∀ l, configTurnOrder = some l → l.Perm memberIds)
    (hthr : governance.majorityThreshold = 1 / 2)
    (habs : governance.abstainCountsAsNo = true) :
    (motionVotePairs (resolveTurnOrder memberIds configTurnOrder) responses).length =
      memberIds.length ∧
    ((motionVoteOutcome (resolveTurnOrder memberIds configTurnOrder) responses
        governance).passed = true ↔
      memberIds.length / 2 + 1 ≤
        ((motionVotePairs (resolveTurnOrder memberIds configTurnOrder) responses).map
            (fun p => p.2.ballot)).count Ballot.yes) := by
  have hlen : (resolveTurnOrder memberIds configTurnOrder).length = memberIds.length := by
    cases h : configTurnOrder with
    | none => simp [resolveTurnOrder]
    | some l => simpa [resolveTurnOrder] using (hperm l h).length_eq
  constructor
  · rw [motionVotePairs_length, hlen]
  · have hblen :
        (((motionVotePairs (resolveTurnOrder memberIds configTurnOrder) responses).map
          (fun p => p.2.ballot)).length) = memberIds.length := by
      simp [motionVotePairs_length, hlen]
    unfold motionVoteOutcome computeVotePass
    rw [hthr, hblen]
    simp only [eq_self_iff_true, if_true, decide_eq_true_eq, ge_iff_le,
      ← count_yes_eq_filter_length]
    exact ⟨fun h => by exact_mod_cast h, fun h => by exact_mod_cast h⟩

/-- Witness for motion_vote_full_denominator: a three-member council where all
members vote YES; the motion passes with 3 of 3 and requires 2. -/
theorem motion_vote_full_denominator_witness :
    ((∀ l, (none : Option (List String)) = some l → l.Perm ["alpha", "beta", "gamma"]) ∧
      (⟨true, 1 / 2, true⟩ : PhaseGovernanceConfig).majorityThreshold = 1 / 2 ∧
      (⟨true, 1 / 2, true⟩ : PhaseGovernanceConfig).abstainCountsAsNo = true) ∧
    ((motionVotePairs (resolveTurnOrder ["alpha", "beta", "gamma"] none)
        (fun _ => JsValue.jsObj [("ballot", JsValue.jsStr "YES")])).length =
      (["alpha", "beta", "gamma"] : List String).length ∧
    ((motionVoteOutcome (resolveTurnOrder ["alpha", "beta", "gamma"] none)
        (fun _ => JsValue.jsObj [("ballot", JsValue.jsStr "YES")])
        ⟨true, 1 / 2, true⟩).passed = true ↔
      (["alpha", "beta", "gamma"] : List String).length / 2 + 1 ≤
        ((motionVotePairs (resolveTurnOrder ["alpha", "beta", "gamma"] none)
            (fun _ => JsValue.jsObj [("ballot", JsValue.jsStr "YES")])).map
            (fun p => p.2.ballot)).count Ballot.yes)) :=
  ⟨⟨fun l h => by simp at h, rfl, rfl⟩,
    motion_vote_full_denominator ["alpha", "beta", "gamma"] none
      (fun _ => JsValue.jsObj [("ballot", JsValue.jsStr "YES")])
      ⟨true, 1 / 2, true⟩ (fun l h => by simp at h) rfl rfl⟩


lemma normalizeTurnAction_invalid (w : JsValue)
    (hne : getParseErrorMessage w = none) (hv : validTurnActionPayload w = false) :
    normalizeTurnAction w =
      TurnAction.pass "Invalid response format from model." (some autoPassNote) := by
  unfold normalizeTurnAction
  rw [hne]
  by_cases h1 : jsFieldIsStr w "action" "CONTRIBUTE" = true
  · have h2 : nonEmptyTrimmed (jsStringField w "message") = none := by
      cases h2 : nonEmptyTrimmed (jsStringField w "message") with
      | none => rfl
      | some m => simp [validTurnActionPayload, h1, h2] at hv
    simp [h1, h2]
  · have h1f : jsFieldIsStr w "action" "CONTRIBUTE" = false := by simpa using h1
    by_cases h3 : jsFieldIsStr w "action" "PASS" = true
    · have h4 : nonEmptyTrimmed (jsStringField w "reason") = none := by
        cases h4 : nonEmptyTrimmed (jsStringField w "reason") with
        | none => rfl
        | some r => simp [validTurnActionPayload, h1f, h3, h4] at hv
      simp [h1, h3, h4]
    · have h3f : jsFieldIsStr w "action" "PASS" = false := by simpa using h3
      by_cases h5 : jsFieldIsStr w "action" "CALL_VOTE" = true
      · cases o1 : nonEmptyTrimmed (jsStringField w "motionTitle") with
        | none => simp [h1, h3, h5, o1]
        | some t =>
          cases o2 : nonEmptyTrimmed (jsStringField w "motionText") with
          | none => simp [h1, h3, h5, o1, o2]
          | some x =>
            cases o3 : nonEmptyTrimmed (jsStringField w "decisionIfPass") with
            | none => simp [h1, h3, h5, o1, o2, o3]
            | some d => simp [validTurnActionPayload, h1f, h3f, h5, o1, o2, o3] at hv
      · simp [h1, h3, h5]


lemma normalizeSecondingResponse_invalid (w : JsValue)
    (hne : getParseErrorMessage w = none) (hv : validSecondingPayload w = false) :
    normalizeSecondingResponse w = { second := false, rationale := "Invalid response format." } := by
  unfold normalizeSecondingResponse
  rw [hne]
  cases hfield : jsGetField w "second" with
  | none => rfl
  | some fv =>
      cases fv with
      | jsBool b =>
          exfalso
          simp [validSecondingPayload, jsBoolField, hfield] at hv
      | jsNull => rfl
      | jsNum q => rfl
      | jsStr s => rfl
      | jsArr items => rfl
      | jsObj fields => rfl

lemma normalizeVoteResponse_invalid (w : JsValue)
    (hne : getParseErrorMessage w = none) (hv : validVotePayload w = false) :
    normalizeVoteResponse w =
      { ballot := Ballot.abstain, rationale := "Invalid response format." } := by
  have hsplit : (jsFieldIsStr w "ballot" "YES" = false ∧ jsFieldIsStr w "ballot" "NO" = false) ∧
      jsFieldIsStr w "ballot" "ABSTAIN" = false := by
    simpa [validVotePayload] using hv
  unfold normalizeVoteResponse
  rw [hne]
  simp [hsplit.1.1, hsplit.1.2, hsplit.2]

lemma normalizeLeaderElectionBallot_invalid (w : JsValue) (memberIds : List String)
    (hne : getParseErrorMessage w = none) (hv : validElectionPayload w memberIds = false) :
    normalizeLeaderElectionBallot w memberIds =
      { candidateId := memberIds.headD ""
        rationale := "Invalid candidate. Defaulted to first member." } := by
  unfold normalizeLeaderElectionBallot
  rw [hne]
  cases hfield : jsStringField w "candidateId" with
  | none => rfl
  | some cid =>
      have hcond : ¬(cid ≠ "" ∧ cid ∈ memberIds) := by
        intro hc
        rw [validElectionPayload, hfield] at hv
        simp [hc.1, hc.2] at hv
      simp [hcond]

lemma completeJsonSafe_parse_failure_recovers (message raw : String) :
    ∃ env, completeJsonSafe (ModelJsonOutcome.parseFailure message raw) = Except.ok env ∧
      (getParseErrorMessage env).isSome = true := by
  refine ⟨_, rfl, ?_⟩
  simp only [getParseErrorMessage, isObjectLike, jsFieldIsStr, jsStringField, jsGetField,
    nonEmptyTrimmed, List.find?]
  norm_num
  split <;> simp

/-- C4: a JSON parse failure never aborts the session (completeJsonSafe turns
it into the json_parse_error envelope and returns it as a success), and every
normalizer maps the envelope, as well as any payload failing its validation,
to its canonical fallback: PASS with a reason naming the parse error or the
invalid format plus the fixed auto-conversion note, second = false, ballot =
ABSTAIN, and the first member id in declaration order. -/
theorem parse_error_fallbacks (v w : JsValue) (msg : String) (memberIds : List String)
    (henv : getParseErrorMessage v = some msg)
    (hw : getParseErrorMessage w = none)
    (hta : validTurnActionPayload w = false)
    (hsec : validSecondingPayload w = false)
    (hvote : validVotePayload w = false)
    (helect : validElectionPayload w memberIds = false) :
    (∀ message raw, ∃ env,
        completeJsonSafe (ModelJsonOutcome.parseFailure message raw) = Except.ok env ∧
          (getParseErrorMessage env).isSome = true) ∧
    normalizeTurnAction v =
      TurnAction.pass ("Model JSON parse error: " ++ msg) (some autoPassNote) ∧
    normalizeSecondingResponse v =
      { second := false, rationale := "Model JSON parse error: " ++ msg } ∧
    normalizeVoteResponse v =
      { ballot := Ballot.abstain, rationale := "Model JSON parse error: " ++ msg } ∧
    normalizeLeaderElectionBallot v memberIds =
      { candidateId := memberIds.headD ""
        rationale := "Model JSON parse error: " ++ msg } ∧
    normalizeTurnAction w =
      TurnAction.pass "Invalid response format from model." (some autoPassNote) ∧
    normalizeSecondingResponse w =
      { second := false, rationale := "Invalid response format." } ∧
    normalizeVoteResponse w =
      { ballot := Ballot.abstain, rationale := "Invalid response format." } ∧
    normalizeLeaderElectionBallot w memberIds =
      { candidateId := memberIds.headD ""
        rationale := "Invalid candidate. Defaulted to first member." } := by
  refine ⟨completeJsonSafe_parse_failure_recovers, ?_, ?_, ?_, ?_,
    normalizeTurnAction_invalid w hw hta,
    normalizeSecondingResponse_invalid w hw hsec,
    normalizeVoteResponse_invalid w hw hvote,
    normalizeLeaderElectionBallot_invalid w memberIds hw helect⟩
  · unfold normalizeTurnAction
    rw [henv]
  · unfold normalizeSecondingResponse
    rw [henv]
  · unfold normalizeVoteResponse
    rw [henv]
  · unfold normalizeLeaderElectionBallot
    rw [henv]

/-- Witness for parse_error_fallbacks: a concrete parse-error envelope and a
concrete invalid payload over a three-member council. -/
theorem parse_error_fallbacks_witness :
    (getParseErrorMessage (JsValue.jsObj
        [("__errorType", JsValue.jsStr "json_parse_error"),
         ("message", JsValue.jsStr "boom")]) = some "boom" ∧
      getParseErrorMessage (JsValue.jsObj [("hello", JsValue.jsStr "world")]) = none ∧
      validTurnActionPayload (JsValue.jsObj [("hello", JsValue.jsStr "world")]) = false ∧
      validSecondingPayload (JsValue.jsObj [("hello", JsValue.jsStr "world")]) = false ∧
      validVotePayload (JsValue.jsObj [("hello", JsValue.jsStr "world")]) = false ∧
      validElectionPayload (JsValue.jsObj [("hello", JsValue.jsStr "world")])
        ["alpha", "beta", "gamma"] = false) ∧
    normalizeTurnAction (JsValue.jsObj
        [("__errorType", JsValue.jsStr "json_parse_error"),
         ("message", JsValue.jsStr "boom")]) =
      TurnAction.pass ("Model JSON parse error: " ++ "boom") (some autoPassNote) ∧
    normalizeVoteResponse (JsValue.jsObj [("hello", JsValue.jsStr "world")]) =
      { ballot := Ballot.abstain, rationale := "Invalid response format." } := by
  refine ⟨⟨by decide, by decide, by decide, by decide, by decide, by decide⟩, ?_, ?_⟩
  · exact (parse_error_fallbacks
      (JsValue.jsObj [("__errorType", JsValue.jsStr "json_parse_error"),
        ("message", JsValue.jsStr "boom")])
      (JsValue.jsObj [("hello", JsValue.jsStr "world")]) "boom" ["alpha", "beta", "gamma"]
      (by decide) (by decide) (by decide) (by decide) (by decide) (by decide)).2.1
  · exact (parse_error_fallbacks
      (JsValue.jsObj [("__errorType", JsValue.jsStr "json_parse_error"),
        ("message", JsValue.jsStr "boom")])
      (JsValue.jsObj [("hello", JsValue.jsStr "world")]) "boom" ["alpha", "beta", "gamma"]
      (by decide) (by decide) (by decide) (by decide) (by decide) (by decide)).2.2.2.2.2.2.2.1

lemma collect_before_emit_of_append (A B : List VoteStep)
    (hA : ∀ s ∈ A, s.isEmit = false) (hB : ∀ s ∈ B, s.isCollect = false)
    (i j : ℕ) (hi : i < (A ++ B).length) (hj : j < (A ++ B).length)
    (hci : ((A ++ B).get ⟨i, hi⟩).isCollect = true)
    (hej : ((A ++ B).get ⟨j, hj⟩).isEmit = true) : i < j := by
  have hiA : i < A.length := by
    by_contra hge
    push_neg at hge
    have hmem : (A ++ B).get ⟨i, hi⟩ ∈ B := by
      rw [List.get_eq_getElem, List.getElem_append_right hge]
      exact List.getElem_mem _
    rw [hB _ hmem] at hci
    exact Bool.false_ne_true hci
  have hjA : A.length ≤ j := by
    by_contra hlt
    push_neg at hlt
    have hmem : (A ++ B).get ⟨j, hj⟩ ∈ A := by
      rw [List.get_eq_getElem, List.getElem_append_left hlt]
      exact List.getElem_mem _
    rw [hA _ hmem] at hej
    exact Bool.false_ne_true hej
  omega

lemma collect_before_emit_of_eq (L A B : List VoteStep) (hL : L = A ++ B)
    (hA : ∀ s ∈ A, s.isEmit = false) (hB : ∀ s ∈ B, s.isCollect = false)
    (i j : ℕ) (hi : i < L.length) (hj : j < L.length)
    (hci : (L.get ⟨i, hi⟩).isCollect = true)
    (hej : (L.get ⟨j, hj⟩).isEmit = true) : i < j := by
  subst hL
  exact collect_before_emit_of_append A B hA hB i j hi hj hci hej

lemma filterMap_collect_members (arrival : List String) (f : String → VoteResponse) :
    (arrival.map (fun m => VoteStep.collect m (f m))).filterMap voteCollectMember = arrival := by
  induction arrival with
  | nil => rfl
  | cons a t ih => simp [List.filterMap_cons, voteCollectMember, ih]

lemma filterMap_collect_of_casts (pairs : List (String × VoteResponse)) :
    (pairs.map (fun p => VoteStep.emitCast p.1 p.2)).filterMap voteCollectMember = [] := by
  induction pairs with
  | nil => rfl
  | cons p t ih => simp [List.filterMap_cons, voteCollectMember, ih]

lemma filter_isEmit_collects (arrival : List String) (f : String → VoteResponse) :
    ((arrival.map (fun m => VoteStep.collect m (f m))).filter VoteStep.isEmit) = [] := by
  induction arrival with
  | nil => rfl
  | cons a t ih => simpa [List.filter_cons, VoteStep.isEmit] using ih

lemma filter_isEmit_casts (pairs : List (String × VoteResponse)) :
    (pairs.map (fun p => VoteStep.emitCast p.1 p.2)).filter VoteStep.isEmit =
      pairs.map (fun p => VoteStep.emitCast p.1 p.2) := by
  induction pairs with
  | nil => rfl
  | cons p t ih => simpa [List.filter_cons, VoteStep.isEmit] using ih

lemma runMotionVotingTrace_eq_append (turnOrder arrival : List String)
    (responses : String → JsValue) (governance : PhaseGovernanceConfig) :
    runMotionVotingTrace turnOrder arrival responses governance =
      (arrival.map (fun m => VoteStep.collect m (normalizeVoteResponse (responses m))))
        ++ (((motionVotePairs turnOrder responses).map (fun p => VoteStep.emitCast p.1 p.2))
            ++ [VoteStep.emitResult (motionVoteOutcome turnOrder responses governance)]) := by
  rw [runMotionVotingTrace, List.append_assoc]

/-- C3: in the voting sub-state, every ballot-collection step precedes every
event-emitting step (no VOTE_CAST is appended before all ballots are
collected); the collected ballots cover the arrival schedule, which is a
permutation of the full turn order; and the emitted events are exactly one
VOTE_CAST per member, consecutively in turn order, followed by the single
VOTE_RESULT. -/
theorem blind_voting (turnOrder arrival : List String) (responses : String → JsValue)
    (governance : PhaseGovernanceConfig) (hperm : arrival.Perm turnOrder) :
    (∀ i j (hi : i < (runMotionVotingTrace turnOrder arrival responses governance).length)
        (hj : j < (runMotionVotingTrace turnOrder arrival responses governance).length),
        ((runMotionVotingTrace turnOrder arrival responses governance).get
            ⟨i, hi⟩).isCollect = true →
        ((runMotionVotingTrace turnOrder arrival responses governance).get
            ⟨j, hj⟩).isEmit = true →
        i < j) ∧
    (runMotionVotingTrace turnOrder arrival responses governance).filterMap voteCollectMember
      = arrival ∧
    arrival.Perm turnOrder ∧
    (runMotionVotingTrace turnOrder arrival responses governance).filter VoteStep.isEmit =
      (turnOrder.map (fun m => VoteStep.emitCast m (normalizeVoteResponse (responses m))))
        ++ [VoteStep.emitResult (motionVoteOutcome turnOrder responses governance)] := by
  refine ⟨?_, ?_, hperm, ?_⟩
  · intro i j hi hj hci hej
    refine collect_before_emit_of_eq _ _ _
      (runMotionVotingTrace_eq_append turnOrder arrival responses governance)
      ?_ ?_ i j hi hj hci hej
    · intro s hs
      simp only [List.mem_map] at hs
      obtain ⟨m, _, rfl⟩ := hs
      rfl
    · intro s hs
      simp only [List.mem_append, List.mem_map, List.mem_singleton] at hs
      rcases hs with ⟨p, _, rfl⟩ | rfl <;> rfl
  · rw [runMotionVotingTrace, List.filterMap_append, List.filterMap_append,
      filterMap_collect_members, filterMap_collect_of_casts]
    simp [voteCollectMember, List.filterMap_cons]
  · rw [runMotionVotingTrace, List.filter_append, List.filter_append,
      filter_isEmit_collects, filter_isEmit_casts]
    simp [motionVotePairs, List.map_map, Function.comp, VoteStep.isEmit]

/-- Witness for blind_voting: a three-member council whose ballots arrive in
the order beta, gamma, alpha. -/
theorem blind_voting_witness :
    (["beta", "gamma", "alpha"] : List String).Perm ["alpha", "beta", "gamma"] ∧
    ((∀ i j (hi : i < (runMotionVotingTrace ["alpha", "beta", "gamma"]
          ["beta", "gamma", "alpha"] exResponses ⟨true, 1 / 2, true⟩).length)
        (hj : j < (runMotionVotingTrace ["alpha", "beta", "gamma"]
          ["beta", "gamma", "alpha"] exResponses ⟨true, 1 / 2, true⟩).length),
        ((runMotionVotingTrace ["alpha", "beta", "gamma"] ["beta", "gamma", "alpha"]
            exResponses ⟨true, 1 / 2, true⟩).get ⟨i, hi⟩).isCollect = true →
        ((runMotionVotingTrace ["alpha", "beta", "gamma"] ["beta", "gamma", "alpha"]
            exResponses ⟨true, 1 / 2, true⟩).get ⟨j, hj⟩).isEmit = true →
        i < j) ∧
      (runMotionVotingTrace ["alpha", "beta", "gamma"] ["beta", "gamma", "alpha"]
          exResponses ⟨true, 1 / 2, true⟩).filterMap voteCollectMember
        = ["beta", "gamma", "alpha"] ∧
      (["beta", "gamma", "alpha"] : List String).Perm ["alpha", "beta", "gamma"] ∧
      (runMotionVotingTrace ["alpha", "beta", "gamma"] ["beta", "gamma", "alpha"]
          exResponses ⟨true, 1 / 2, true⟩).filter VoteStep.isEmit =
        ((["alpha", "beta", "gamma"] : List String).map
            (fun m => VoteStep.emitCast m (normalizeVoteResponse (exResponses m))))
          ++ [VoteStep.emitResult (motionVoteOutcome ["alpha", "beta", "gamma"]
              exResponses ⟨true, 1 / 2, true⟩)]) :=
  ⟨by decide, blind_voting ["alpha", "beta", "gamma"] ["beta", "gamma", "alpha"]
    exResponses ⟨true, 1 / 2, true⟩ (by decide)⟩

lemma filterMap_ballot_members (arrival : List String) (f : String → LeaderElectionBallot) :
    (arrival.map (fun m => ElectionStep.emitBallot m (f m))).filterMap electionBallotMember
      = arrival := by
  induction arrival with
  | nil => rfl
  | cons a t ih => simp [List.filterMap_cons, electionBallotMember, ih]

lemma electLeaderTrace_ballot_order (memberIds arrival : List String)
    (responses : String → JsValue) :
    (electLeaderTrace memberIds arrival responses).filterMap electionBallotMember = arrival := by
  rw [electLeaderTrace, List.filterMap_append, filterMap_ballot_members]
  simp [List.filterMap_cons, electionBallotMember]

lemma filter_isElected_ballots (arrival : List String) (f : String → LeaderElectionBallot) :
    ((arrival.map (fun m => ElectionStep.emitBallot m (f m))).filter ElectionStep.isElected)
      = [] := by
  induction arrival with
  | nil => rfl
  | cons a t ih => simpa [List.filter_cons, ElectionStep.isElected] using ih

lemma filterMap_castMember_collects (arrival : List String) (f : String → VoteResponse) :
    (arrival.map (fun m => VoteStep.collect m (f m))).filterMap voteCastMember = [] := by
  induction arrival with
  | nil => rfl
  | cons a t ih => simp [List.filterMap_cons, voteCastMember, ih]

lemma filterMap_castMember_casts (pairs : List (String × VoteResponse)) :
    (pairs.map (fun p => VoteStep.emitCast p.1 p.2)).filterMap voteCastMember =
      pairs.map (fun p => p.1) := by
  induction pairs with
  | nil => rfl
  | cons p t ih => simp [List.filterMap_cons, voteCastMember, ih]

lemma map_fst_pairing {α : Type} (l : List String) (g : String → α) :
    (l.map (fun m => (m, g m))).map (fun p => p.1) = l := by
  induction l with
  | nil => rfl
  | cons a t ih => simp [ih]

lemma motionVotePairs_fst (turnOrder : List String) (responses : String → JsValue) :
    (motionVotePairs turnOrder responses).map (fun p => p.1) = turnOrder := by
  rw [motionVotePairs, map_fst_pairing]

lemma filterMap_secondingMember_collects (arrival : List String)
    (f : String → SecondingResponse) :
    (arrival.map (fun m => SecondingStep.collect m (f m))).filterMap secondingResponseMember
      = [] := by
  induction arrival with
  | nil => rfl
  | cons a t ih => simp [List.filterMap_cons, secondingResponseMember, ih]

lemma filterMap_secondingMember_emits (pairs : List (String × SecondingResponse)) :
    (pairs.map (fun p => SecondingStep.emitResponse p.1 p.2)).filterMap secondingResponseMember
      = pairs.map (fun p => p.1) := by
  induction pairs with
  | nil => rfl
  | cons p t ih => simp [List.filterMap_cons, secondingResponseMember, ih]

lemma secondingPairs_fst (turnOrder : List String) (callerId : String)
    (responses : String → JsValue) :
    (secondingPairs turnOrder callerId responses).map (fun p => p.1) =
      turnOrder.filter (fun id => id ≠ callerId) := by
  rw [secondingPairs, map_fst_pairing]

/-- C5 counterexample: with a legal completion schedule in which member beta
answers before member alpha, the LEADER_ELECTION_BALLOT events of electLeader
are appended in arrival order, which differs from the deterministic member
turn order. -/
theorem leader_ballots_not_in_member_order :
    exArrival.Perm exMembers ∧
    (electLeaderTrace exMembers exArrival exResponses).filterMap electionBallotMember ≠
      exMembers := by
  constructor
  · decide
  · rw [electLeaderTrace_ballot_order]
    decide

/-- C5 amended: the seconding and vote fan-outs emit their response events in
deterministic member turn order after the join, while electLeader appends one
LEADER_ELECTION_BALLOT per voter in completion (arrival) order, all before the
single LEADER_ELECTED event that closes the trace. -/
theorem fanout_event_order (memberIds arrival : List String) (responses : String → JsValue)
    (turnOrder varrival : List String) (vresponses : String → JsValue)
    (governance : PhaseGovernanceConfig) (callerId : String)
    (sarrival : List String) (sresponses : String → JsValue)
    (hperm : arrival.Perm memberIds) (hnodup : memberIds.Nodup) :
    (electLeaderTrace memberIds arrival responses).filterMap electionBallotMember = arrival ∧
    (∀ m ∈ memberIds,
      ((electLeaderTrace memberIds arrival responses).filterMap electionBallotMember).count m
        = 1) ∧
    (electLeaderTrace memberIds arrival responses).getLast? =
      some (ElectionStep.emitElected (electWinner memberIds responses)) ∧
    ((electLeaderTrace memberIds arrival responses).filter ElectionStep.isElected).length = 1 ∧
    (runMotionVotingTrace turnOrder varrival vresponses governance).filterMap voteCastMember =
      turnOrder ∧
    (runSecondingTrace turnOrder callerId sarrival sresponses).filterMap
        secondingResponseMember =
      turnOrder.filter (fun id => id ≠ callerId) := by
  refine ⟨electLeaderTrace_ballot_order memberIds arrival responses, ?_, ?_, ?_, ?_, ?_⟩
  · intro m hm
    rw [electLeaderTrace_ballot_order, hperm.count_eq]
    exact List.count_eq_one_of_mem hnodup hm
  · rw [electLeaderTrace]
    exact List.getLast?_concat _
  · rw [electLeaderTrace, List.filter_append, filter_isElected_ballots]
    simp [List.filter_cons, ElectionStep.isElected]
  · rw [runMotionVotingTrace, List.filterMap_append, List.filterMap_append,
      filterMap_castMember_collects, filterMap_castMember_casts, motionVotePairs_fst]
    simp [List.filterMap_cons, voteCastMember]
  · rw [runSecondingTrace]
    cases hfind : ((secondingPairs turnOrder callerId sresponses).find?
        (fun p => p.2.second)).map Prod.fst with
    | none =>
        rw [List.filterMap_append, List.filterMap_append, filterMap_secondingMember_collects,
          filterMap_secondingMember_emits, secondingPairs_fst]
        simp [List.filterMap_cons, secondingResponseMember]
    | some s =>
        rw [List.filterMap_append, List.filterMap_append, filterMap_secondingMember_collects,
          filterMap_secondingMember_emits, secondingPairs_fst]
        simp [List.filterMap_cons, secondingResponseMember]

/-- Witness for fanout_event_order at the concrete three-member council. -/
theorem fanout_event_order_witness :
    (exArrival.Perm exMembers ∧ exMembers.Nodup) ∧
    ((electLeaderTrace exMembers exArrival exResponses).filterMap electionBallotMember
        = exArrival ∧
      (∀ m ∈ exMembers,
        ((electLeaderTrace exMembers exArrival exResponses).filterMap
            electionBallotMember).count m = 1) ∧
      (electLeaderTrace exMembers exArrival exResponses).getLast? =
        some (ElectionStep.emitElected (electWinner exMembers exResponses)) ∧
      ((electLeaderTrace exMembers exArrival exResponses).filter
          ElectionStep.isElected).length = 1 ∧
      (runMotionVotingTrace exMembers exArrival exResponses
          ⟨true, 1 / 2, true⟩).filterMap voteCastMember = exMembers ∧
      (runSecondingTrace exMembers "alpha" ["beta", "gamma"] exResponses).filterMap
          secondingResponseMember = exMembers.filter (fun id => id ≠ "alpha")) :=
  ⟨⟨by decide, by decide⟩,
    fanout_event_order exMembers exArrival exResponses exMembers exArrival exResponses
      ⟨true, 1 / 2, true⟩ "alpha" ["beta", "gamma"] exResponses (by decide) (by decide)⟩

lemma transitionLe_trans (a b c : PhaseTransitionConfig)
    (hab : transitionLe a b = true) (hbc : transitionLe b c = true) :
    transitionLe a c = true := by
  simp only [transitionLe, decide_eq_true_eq] at hab hbc ⊢
  rcases hab with h | ⟨h1, h2⟩ <;> rcases hbc with h' | ⟨h1', h2'⟩
  · exact Or.inl (h.trans h')
  · exact Or.inl (h1' ▸ h)
  · exact Or.inl (h1 ▸ h')
  · exact Or.inr ⟨h1.trans h1', h2.trans h2'⟩

lemma transitionLe_total (a b : PhaseTransitionConfig) :
    (transitionLe a b || transitionLe b a) = true := by
  simp only [transitionLe, Bool.or_eq_true, decide_eq_true_eq]
  rcases lt_trichotomy a.priority b.priority with h | h | h
  · exact Or.inl (Or.inl h)
  · rcases le_total a.toPhaseId b.toPhaseId with h2 | h2
    · exact Or.inl (Or.inr ⟨h, h2⟩)
    · exact Or.inr (Or.inr ⟨h.symm, h2⟩)
  · exact Or.inr (Or.inl h)

lemma transitionLe_refl (a : PhaseTransitionConfig) : transitionLe a a = true := by
  simp [transitionLe]

/-- C6: the transition resolver considers exactly the transitions whose
trigger is ALWAYS or matches the phase outcome; when any is eligible it
returns an eligible transition of the phase minimal for (priority, target id);
when none is eligible it returns the synthetic lowest-priority fallback
transition exactly when the phase ended by round limit and the fallback action
is TRANSITION (config validation guarantees a non-empty target id then), and
otherwise no transition, terminating the session. -/
theorem resolveNextPhaseTransition_characterization
    (transitions : List PhaseTransitionConfig) (fallback : PhaseFallbackConfig)
    (endedBy : EndedBy)
    (hvalid : fallback.action = PhaseFallbackAction.transition →
      ∃ tid, fallback.transitionToPhaseId = some tid ∧ tid ≠ "") :
    ((∃ t ∈ transitions, eligibleTransition endedBy t = true) →
      ∃ u, resolveNextPhaseTransition transitions fallback endedBy = some u ∧
        u ∈ transitions ∧ eligibleTransition endedBy u = true ∧
        ∀ w ∈ transitions, eligibleTransition endedBy w = true → transitionLe u w = true) ∧
    ((∀ t ∈ transitions, eligibleTransition endedBy t = false) →
      resolveNextPhaseTransition transitions fallback endedBy =
        (if endedBy = EndedBy.roundLimit ∧
            fallback.action = PhaseFallbackAction.transition then
          some { toPhaseId := fallback.transitionToPhaseId.getD ""
                 trigger := PhaseTransitionTrigger.roundLimit
                 reason := some "fallback_transition"
                 priority := maxSafeInteger }
        else none)) := by
  constructor
  · rintro ⟨t, ht, helig⟩
    have hmem : t ∈ transitions.filter (eligibleTransition endedBy) :=
      List.mem_filter.mpr ⟨ht, helig⟩
    have hperm := ((transitions.filter (eligibleTransition endedBy)).mergeSort_perm
      transitionLe)
    have hne : (transitions.filter (eligibleTransition endedBy)).mergeSort transitionLe
        ≠ [] := by
      intro hnil
      rw [hnil] at hperm
      rw [← hperm.mem_iff] at hmem
      exact (List.not_mem_nil t) hmem
    obtain ⟨u, rest, hcons⟩ := List.exists_cons_of_ne_nil hne
    have hsorted := List.sorted_mergeSort transitionLe_trans transitionLe_total
      (transitions.filter (eligibleTransition endedBy))
    rw [hcons] at hsorted hperm
    have humem : u ∈ transitions.filter (eligibleTransition endedBy) :=
      hperm.mem_iff.mp (List.mem_cons_self u rest)
    refine ⟨u, ?_, (List.mem_filter.mp humem).1, (List.mem_filter.mp humem).2, ?_⟩
    · rw [resolveNextPhaseTransition]
      simp only [hcons, List.head?_cons]
    · intro w hw hwe
      have hwmem : w ∈ u :: rest :=
        hperm.mem_iff.mpr (List.mem_filter.mpr ⟨hw, hwe⟩)
      rcases List.mem_cons.mp hwmem with rfl | hwrest
      · exact transitionLe_refl w
      · exact (List.pairwise_cons.mp hsorted).1 w hwrest
  · intro hnone
    have hfil : transitions.filter (eligibleTransition endedBy) = [] :=
      List.filter_eq_nil_iff.mpr (fun a ha => by simp [hnone a ha])
    rw [resolveNextPhaseTransition]
    simp only [hfil, List.mergeSort_nil, List.head?_nil]
    by_cases hc : endedBy = EndedBy.roundLimit ∧
        fallback.action = PhaseFallbackAction.transition
    · obtain ⟨tid, htid, hne⟩ := hvalid hc.2
      rw [if_pos hc, if_pos hc, htid]
      simp [hne]
    · rw [if_neg hc, if_neg hc]

/-- Witness for resolveNextPhaseTransition_characterization: a phase with two
eligible transitions of equal priority, ending by round limit, with a
validated TRANSITION fallback. -/
theorem resolveNextPhaseTransition_witness :
    ((⟨"", PhaseFallbackAction.transition, some "retry"⟩ : PhaseFallbackConfig).action =
        PhaseFallbackAction.transition →
      ∃ tid, (⟨"", PhaseFallbackAction.transition,
          some "retry"⟩ : PhaseFallbackConfig).transitionToPhaseId = some tid ∧ tid ≠ "") ∧
    (((∃ t ∈ ([⟨"beta", PhaseTransitionTrigger.always, none, 100⟩,
          ⟨"alpha", PhaseTransitionTrigger.roundLimit, none, 100⟩] :
            List PhaseTransitionConfig), eligibleTransition EndedBy.roundLimit t = true) →
      ∃ u, resolveNextPhaseTransition
          [⟨"beta", PhaseTransitionTrigger.always, none, 100⟩,
            ⟨"alpha", PhaseTransitionTrigger.roundLimit, none, 100⟩]
          ⟨"", PhaseFallbackAction.transition, some "retry"⟩ EndedBy.roundLimit = some u ∧
        u ∈ ([⟨"beta", PhaseTransitionTrigger.always, none, 100⟩,
            ⟨"alpha", PhaseTransitionTrigger.roundLimit, none, 100⟩] :
              List PhaseTransitionConfig) ∧
        eligibleTransition EndedBy.roundLimit u = true ∧
        ∀ w ∈ ([⟨"beta", PhaseTransitionTrigger.always, none, 100⟩,
            ⟨"alpha", PhaseTransitionTrigger.roundLimit, none, 100⟩] :
              List PhaseTransitionConfig),
          eligibleTransition EndedBy.roundLimit w = true → transitionLe u w = true) ∧
    ((∀ t ∈ ([⟨"beta", PhaseTransitionTrigger.always, none, 100⟩,
          ⟨"alpha", PhaseTransitionTrigger.roundLimit, none, 100⟩] :
            List PhaseTransitionConfig), eligibleTransition EndedBy.roundLimit t = false) →
      resolveNextPhaseTransition
          [⟨"beta", PhaseTransitionTrigger.always, none, 100⟩,
            ⟨"alpha", PhaseTransitionTrigger.roundLimit, none, 100⟩]
          ⟨"", PhaseFallbackAction.transition, some "retry"⟩ EndedBy.roundLimit =
        (if EndedBy.roundLimit = EndedBy.roundLimit ∧
            (⟨"", PhaseFallbackAction.transition,
              some "retry"⟩ : PhaseFallbackConfig).action =
              PhaseFallbackAction.transition then
          some { toPhaseId := (⟨"", PhaseFallbackAction.transition,
                  some "retry"⟩ : PhaseFallbackConfig).transitionToPhaseId.getD ""
                 trigger := PhaseTransitionTrigger.roundLimit
                 reason := some "fallback_transition"
                 priority := maxSafeInteger }
        else none))) :=
  ⟨fun _ => ⟨"retry", rfl, by decide⟩,
    resolveNextPhaseTransition_characterization
      [⟨"beta", PhaseTransitionTrigger.always, none, 100⟩,
        ⟨"alpha", PhaseTransitionTrigger.roundLimit, none, 100⟩]
      ⟨"", PhaseFallbackAction.transition, some "retry"⟩ EndedBy.roundLimit
      (fun _ => ⟨"retry", rfl, by decide⟩)⟩

/-- C7: evaluation of the code at the failing input.  A reviewer response that
fails JSON parsing reaches normalizeDocumentFeedback as the json_parse_error
envelope produced by completeJsonSafe; the envelope is itself a JS object, so
the typeof-object guard passes, the synthetic-B0 branch is skipped, and the
resulting feedback carries no critical blocker at all, contrary to the claim
that a synthetic blocker B0 is inserted. -/
theorem unparseable_feedback_yields_no_blocker (message raw memberId : String) :
    completeJsonSafe (ModelJsonOutcome.parseFailure message raw) =
      Except.ok (JsValue.jsObj [("__errorType", JsValue.jsStr "json_parse_error"),
        ("message", JsValue.jsStr message), ("raw", JsValue.jsStr (jsTake raw 800))]) ∧
    normalizeDocumentFeedback
        (JsValue.jsObj [("__errorType", JsValue.jsStr "json_parse_error"),
          ("message", JsValue.jsStr message), ("raw", JsValue.jsStr (jsTake raw 800))])
        memberId =
      { memberId := memberId, criticalBlockers := [], suggestedChanges := [] } := by
  refine ⟨rfl, ?_⟩
  rfl

lemma approvalVotePairs_length (turnOrder : List String)
    (voteOracle : ℕ → String → JsValue) (revision : ℕ) :
    (approvalVotePairs turnOrder voteOracle revision).length = turnOrder.length := by
  simp [approvalVotePairs]

lemma docLoopGo_draft_count (turnOrder : List String)
    (voteOracle feedbackOracle : ℕ → String → JsValue) (reviseOracle : ℕ → String) :
    ∀ (remaining revision : ℕ) (draft : String) (latest : List DocumentReviewFeedback),
      ((docLoopGo turnOrder voteOracle feedbackOracle reviseOracle revision draft latest
          remaining).1.filter isDraftArtifact).length ≤ remaining := by
  intro remaining
  induction remaining with
  | zero =>
      intro revision draft latest
      simp [docLoopGo, isDraftArtifact, List.filter_cons]
  | succ rem ih =>
      intro revision draft latest
      by_cases hp : (approvalVoteResult turnOrder voteOracle revision).passed = true
      · simp [docLoopGo, hp, isDraftArtifact, List.filter_cons]
      · by_cases hr : rem = 0
        · simp [docLoopGo, hp, hr, isDraftArtifact, List.filter_cons]
        · have hstep := ih (revision + 1) (jsTrim (reviseOracle revision))
            (collectDocumentFeedback
              (approvalVotePairs turnOrder voteOracle revision) (feedbackOracle revision))
          simp only [docLoopGo, hp, hr, if_false, Bool.false_eq_true, ite_false]
          simp [List.filter_cons, isDraftArtifact]
          omega

lemma docLoopGo_approved_iff (turnOrder : List String)
    (voteOracle feedbackOracle : ℕ → String → JsValue) (reviseOracle : ℕ → String) :
    ∀ (remaining revision : ℕ) (draft : String) (latest : List DocumentReviewFeedback),
      ((docLoopGo turnOrder voteOracle feedbackOracle reviseOracle revision draft latest
          remaining).2 = true ↔
        ∃ k, revision ≤ k ∧ k < revision + remaining ∧
          (approvalVoteResult turnOrder voteOracle k).passed = true) := by
  intro remaining
  induction remaining with
  | zero =>
      intro revision draft latest
      simp only [docLoopGo]
      constructor
      · intro h
        exact absurd h (by simp)
      · rintro ⟨k, h1, h2, _⟩
        omega
  | succ rem ih =>
      intro revision draft latest
      by_cases hp : (approvalVoteResult turnOrder voteOracle revision).passed = true
      · simp only [docLoopGo, hp, if_true]
        constructor
        · intro _
          exact ⟨revision, le_refl revision, by omega, hp⟩
        · intro _
          trivial
      · by_cases hr : rem = 0
        · simp only [docLoopGo, hp, hr, Bool.false_eq_true, if_false, if_true]
          constructor
          · intro h
            exact absurd h (by simp)
          · rintro ⟨k, h1, h2, h3⟩
            have hk : k = revision := by omega
            subst hk
            exact absurd h3 hp
        · have hstep := ih (revision + 1) (jsTrim (reviseOracle revision))
            (collectDocumentFeedback
              (approvalVotePairs turnOrder voteOracle revision) (feedbackOracle revision))
          simp only [docLoopGo, hp, hr, Bool.false_eq_true, if_false, ite_false]
          rw [hstep]
          constructor
          · rintro ⟨k, h1, h2, h3⟩
            exact ⟨k, by omega, by omega, h3⟩
          · rintro ⟨k, h1, h2, h3⟩
            rcases Nat.eq_or_lt_of_le h1 with rfl | hgt
            · exact absurd h3 hp
            · exact ⟨k, by omega, by omega, h3⟩

lemma docLoopGo_final_artifacts (turnOrder : List String)
    (voteOracle feedbackOracle : ℕ → String → JsValue) (reviseOracle : ℕ → String) :
    ∀ (remaining revision : ℕ) (draft : String) (latest : List DocumentReviewFeedback),
      (((docLoopGo turnOrder voteOracle feedbackOracle reviseOracle revision draft latest
            remaining).2 = true ∧
          ∃ c, (docLoopGo turnOrder voteOracle feedbackOracle reviseOracle revision draft
              latest remaining).1.getLast? = some (DocArtifact.approvedFile c)) ∨
        ((docLoopGo turnOrder voteOracle feedbackOracle reviseOracle revision draft latest
            remaining).2 = false ∧
          (∃ bl, (docLoopGo turnOrder voteOracle feedbackOracle reviseOracle revision draft
              latest remaining).1.getLast? =
            some (DocArtifact.unresolvedBlockersFile bl)) ∧
          ∃ c, DocArtifact.unapprovedFile c ∈
            (docLoopGo turnOrder voteOracle feedbackOracle reviseOracle revision draft latest
              remaining).1)) := by
  intro remaining
  induction remaining with
  | zero =>
      intro revision draft latest
      right
      refine ⟨rfl, ⟨unresolvedBlockersOf latest, rfl⟩, draft, ?_⟩
      simp [docLoopGo]
  | succ rem ih =>
      intro revision draft latest
      by_cases hp : (approvalVoteResult turnOrder voteOracle revision).passed = true
      · left
        refine ⟨by simp [docLoopGo, hp], draft, ?_⟩
        simp [docLoopGo, hp]
      · by_cases hr : rem = 0
        · right
          refine ⟨by simp [docLoopGo, hp, hr], ⟨unresolvedBlockersOf latest, ?_⟩, draft, ?_⟩
          · simp [docLoopGo, hp, hr]
          · simp [docLoopGo, hp, hr]
        · have hstep := ih (revision + 1) (jsTrim (reviseOracle revision))
            (collectDocumentFeedback
              (approvalVotePairs turnOrder voteOracle revision) (feedbackOracle revision))
          simp only [docLoopGo, hp, hr, Bool.false_eq_true, if_false, ite_false]
          rcases hstep with ⟨happ, c, hlast⟩ | ⟨happ, ⟨bl, hlast⟩, c, hmem⟩
          · left
            refine ⟨happ, c, ?_⟩
            rw [List.getLast?_cons_cons]
            cases hrest : (docLoopGo turnOrder voteOracle feedbackOracle reviseOracle
                (revision + 1) (jsTrim (reviseOracle revision))
                (collectDocumentFeedback (approvalVotePairs turnOrder voteOracle revision)
                  (feedbackOracle revision)) rem).1 with
            | nil => rw [hrest] at hlast; exact absurd hlast (by simp)
            | cons a l =>
                rw [hrest] at hlast
                rw [List.getLast?_cons_cons, hlast]
          · right
            refine ⟨happ, ⟨bl, ?_⟩, c, ?_⟩
            · rw [List.getLast?_cons_cons]
              cases hrest : (docLoopGo turnOrder voteOracle feedbackOracle reviseOracle
                  (revision + 1) (jsTrim (reviseOracle revision))
                  (collectDocumentFeedback (approvalVotePairs turnOrder voteOracle revision)
                    (feedbackOracle revision)) rem).1 with
              | nil => rw [hrest] at hlast; exact absurd hlast (by simp)
              | cons a l =>
                  rw [hrest] at hlast
                  rw [List.getLast?_cons_cons, hlast]
            · simp only [List.mem_cons]
              exact Or.inr (Or.inr hmem)

/-- C8: the documentation review loop persists at most maxRevisionRounds + 1
draft attempts; every approval vote polls the full council at threshold 0.5
with abstentions counted as NO; the loop returns approved exactly when some
revision within the bound passes its vote, ending with the approved artifact,
and on exhaustion it ends with the unapproved draft and the
unresolved-blockers artifact and returns not approved. -/
theorem documentation_loop_bounded (turnOrder : List String)
    (voteOracle feedbackOracle : ℕ → String → JsValue) (reviseOracle : ℕ → String)
    (initialDraft : String) (maxRevisionRounds : ℕ) :
    ((runDocumentationApprovalLoop turnOrder voteOracle feedbackOracle reviseOracle
        initialDraft maxRevisionRounds).1.filter isDraftArtifact).length ≤
      maxRevisionRounds + 1 ∧
    (∀ k, (approvalVotePairs turnOrder voteOracle k).length = turnOrder.length) ∧
    ((runDocumentationApprovalLoop turnOrder voteOracle feedbackOracle reviseOracle
        initialDraft maxRevisionRounds).2 = true ↔
      ∃ k, 1 ≤ k ∧ k ≤ maxRevisionRounds + 1 ∧
        (computeVotePass
          ((approvalVotePairs turnOrder voteOracle k).map (fun p => p.2.ballot))
          { requireSeconding := true, majorityThreshold := 1 / 2,
            abstainCountsAsNo := true }).passed = true) ∧
    (((runDocumentationApprovalLoop turnOrder voteOracle feedbackOracle reviseOracle
          initialDraft maxRevisionRounds).2 = true ∧
        ∃ c, (runDocumentationApprovalLoop turnOrder voteOracle feedbackOracle reviseOracle
            initialDraft maxRevisionRounds).1.getLast? =
          some (DocArtifact.approvedFile c)) ∨
      ((runDocumentationApprovalLoop turnOrder voteOracle feedbackOracle reviseOracle
          initialDraft maxRevisionRounds).2 = false ∧
        (∃ bl, (runDocumentationApprovalLoop turnOrder voteOracle feedbackOracle
            reviseOracle initialDraft maxRevisionRounds).1.getLast? =
          some (DocArtifact.unresolvedBlockersFile bl)) ∧
        ∃ c, DocArtifact.unapprovedFile c ∈
          (runDocumentationApprovalLoop turnOrder voteOracle feedbackOracle reviseOracle
            initialDraft maxRevisionRounds).1)) := by
  refine ⟨?_, approvalVotePairs_length turnOrder voteOracle, ?_, ?_⟩
  · exact docLoopGo_draft_count turnOrder voteOracle feedbackOracle reviseOracle
      (maxRevisionRounds + 1) 1 (jsTrim initialDraft) []
  · rw [runDocumentationApprovalLoop,
      docLoopGo_approved_iff turnOrder voteOracle feedbackOracle reviseOracle
        (maxRevisionRounds + 1) 1 (jsTrim initialDraft) []]
    constructor
    · rintro ⟨k, h1, h2, h3⟩
      exact ⟨k, h1, by omega, h3⟩
    · rintro ⟨k, h1, h2, h3⟩
      exact ⟨k, h1, by omega, h3⟩
  · exact docLoopGo_final_artifacts turnOrder voteOracle feedbackOracle reviseOracle
      (maxRevisionRounds + 1) 1 (jsTrim initialDraft) []

lemma dedupKeysAux_mem (l : List String) : ∀ (seen : List String) (m : String),
    m ∈ dedupKeysAux seen l ↔ m ∈ l ∧ m ∉ seen := by
  induction l with
  | nil =>
      intro seen m
      simp [dedupKeysAux]
  | cons k rest ih =>
      intro seen m
      by_cases hk : seen.contains k = true
      · rw [dedupKeysAux, if_pos hk, ih]
        have hkm : k ∈ seen := by simpa using hk
        constructor
        · rintro ⟨h1, h2⟩
          exact ⟨List.mem_cons_of_mem _ h1, h2⟩
        · rintro ⟨h1, h2⟩
          rcases List.mem_cons.mp h1 with rfl | h1
          · exact absurd hkm h2
          · exact ⟨h1, h2⟩
      · rw [dedupKeysAux, if_neg hk]
        have hkm : k ∉ seen := by
          intro hc
          exact hk (by simpa using hc)
        constructor
        · intro h
          rcases List.mem_cons.mp h with rfl | h1
          · exact ⟨List.mem_cons_self _ _, hkm⟩
          · obtain ⟨h2, h3⟩ := (ih (k :: seen) m).mp h1
            refine ⟨List.mem_cons_of_mem _ h2, fun hc => h3 (List.mem_cons_of_mem _ hc)⟩
        · rintro ⟨h1, h2⟩
          rcases List.mem_cons.mp h1 with rfl | h1
          · exact List.mem_cons_self _ _
          · by_cases hmk : m = k
            · subst hmk
              exact List.mem_cons_self _ _
            · refine List.mem_cons_of_mem _ ((ih (k :: seen) m).mpr ⟨h1, ?_⟩)
              intro hc
              rcases List.mem_cons.mp hc with h | h
              · exact hmk h
              · exact h2 h

lemma dedupKeysAux_nodup (l : List String) : ∀ (seen : List String),
    (dedupKeysAux seen l).Nodup := by
  induction l with
  | nil =>
      intro seen
      simp [dedupKeysAux]
  | cons k rest ih =>
      intro seen
      by_cases hk : seen.contains k = true
      · rw [dedupKeysAux, if_pos hk]
        exact ih seen
      · rw [dedupKeysAux, if_neg hk]
        refine List.nodup_cons.mpr ⟨?_, ih (k :: seen)⟩
        intro hc
        exact ((dedupKeysAux_mem rest (k :: seen) k).mp hc).2 (List.mem_cons_self _ _)

lemma dedupKeys_nodup (l : List String) : (dedupKeys l).Nodup :=
  dedupKeysAux_nodup l []

lemma mem_dedupKeys (l : List String) (m : String) : m ∈ dedupKeys l ↔ m ∈ l := by
  rw [dedupKeys, dedupKeysAux_mem]
  simp

lemma filterMap_find?_ids (records : List MemoryRecord) :
    ∀ (keys : List String), (∀ k ∈ keys, ∃ r ∈ records.reverse, r.id = k) →
      ((keys.filterMap (fun k => records.reverse.find? (fun r => r.id == k))).map
        (fun r => r.id)) = keys := by
  intro keys
  induction keys with
  | nil => intro _; rfl
  | cons k t ih =>
      intro hkeys
      obtain ⟨r, hr, hid⟩ := hkeys k (List.mem_cons_self _ _)
      have hsome : (records.reverse.find? (fun r => r.id == k)).isSome := by
        rw [List.find?_isSome]
        exact ⟨r, hr, by simp [hid]⟩
      obtain ⟨r2, hfind⟩ := Option.isSome_iff_exists.mp hsome
      have hid2 : r2.id = k := by
        have := List.find?_some hfind
        simpa using this
      rw [List.filterMap_cons, hfind]
      simp only [List.map_cons, hid2]
      rw [ih (fun k2 hk2 => hkeys k2 (List.mem_cons_of_mem _ hk2))]

lemma dedupById_ids (records : List MemoryRecord) :
    (dedupById records).map (fun r => r.id) = dedupKeys (records.map (fun r => r.id)) := by
  apply filterMap_find?_ids
  intro k hk
  have hk2 : k ∈ records.map (fun r => r.id) := (mem_dedupKeys _ _).mp hk
  obtain ⟨r, hr, rfl⟩ := List.mem_map.mp hk2
  exact ⟨r, List.mem_reverse.mpr hr, rfl⟩

lemma recordLe_trans (a b c : MemoryRecord)
    (hab : recordLe a b = true) (hbc : recordLe b c = true) : recordLe a c = true := by
  simp only [recordLe, decide_eq_true_eq] at hab hbc ⊢
  rcases hab with h | ⟨h1, h2⟩ <;> rcases hbc with h3 | ⟨h4, h5⟩
  · exact Or.inl (h3.trans h)
  · exact Or.inl (h4 ▸ h)
  · exact Or.inl (h1 ▸ h3)
  · exact Or.inr ⟨h1.trans h4, h5.trans h2⟩

lemma recordLe_total (a b : MemoryRecord) :
    (recordLe a b || recordLe b a) = true := by
  simp only [recordLe, Bool.or_eq_true, decide_eq_true_eq]
  rcases lt_trichotomy a.importance b.importance with h | h | h
  · exact Or.inr (Or.inl h)
  · rcases le_total a.updatedAt b.updatedAt with h2 | h2
    · exact Or.inr (Or.inr ⟨h.symm, h2⟩)
    · exact Or.inl (Or.inr ⟨h, h2⟩)
  · exact Or.inl (Or.inl h)

lemma pruneRecords_length_le (records : List MemoryRecord) (limit : ℕ) :
    (pruneRecords records limit).length ≤ limit :=
  List.length_take_le limit _

lemma pruneRecords_sorted (records : List MemoryRecord) (limit : ℕ) :
    List.Pairwise (fun a b => recordLe a b = true) (pruneRecords records limit) :=
  List.Pairwise.sublist (List.take_sublist limit _)
    (List.sorted_mergeSort recordLe_trans recordLe_total (dedupById records))

lemma pruneRecords_ids_nodup (records : List MemoryRecord) (limit : ℕ) :
    ((pruneRecords records limit).map (fun r => r.id)).Nodup := by
  have hperm : ((dedupById records).mergeSort recordLe).Perm (dedupById records) :=
    List.mergeSort_perm _ _
  have hnodup : ((dedupById records).map (fun r => r.id)).Nodup := by
    rw [dedupById_ids]
    exact dedupKeys_nodup _
  have h2 : (((dedupById records).mergeSort recordLe).map (fun r => r.id)).Nodup :=
    ((hperm.map _).nodup_iff).mpr hnodup
  rw [pruneRecords, List.map_take]
  exact List.Nodup.sublist (List.take_sublist _ _) h2

lemma foldl_pres {α β : Type} (f : α → β → α) (P : α → Prop)
    (hf : ∀ x p, P (f x p)) :
    ∀ (inputs : List β) (start : α) (p : β), P ((p :: inputs).foldl f start) := by
  intro inputs
  induction inputs with
  | nil =>
      intro start p
      simpa using hf start p
  | cons q t ih =>
      intro start p
      rw [List.foldl_cons, List.foldl_cons]
      have h := ih (f start p) q
      rw [List.foldl_cons] at h
      exact h

lemma applyMember_records_le (memory : MemberMemoryV2) (memberId : String)
    (input : RecordSessionInput) (now : String) :
    (applySessionToMemberMemory memory memberId input now).records.length ≤
      MEMBER_RECORD_LIMIT :=
  pruneRecords_length_le _ _

lemma applyMember_recentSessions_le (memory : MemberMemoryV2) (memberId : String)
    (input : RecordSessionInput) (now : String) :
    (applySessionToMemberMemory memory memberId input now).recentSessions.length ≤
      SESSION_DIGEST_LIMIT :=
  List.length_take_le _ _

lemma applyCouncil_globalDecisions_le (council : CouncilMemoryV2)
    (input : RecordSessionInput) (now : String) :
    (applySessionToCouncilMemory council input now).globalDecisions.length ≤
      COUNCIL_RECORD_LIMIT :=
  pruneRecords_length_le _ _

lemma applyCouncil_crossAgentLessons_le (council : CouncilMemoryV2)
    (input : RecordSessionInput) (now : String) :
    (applySessionToCouncilMemory council input now).crossAgentLessons.length ≤
      COUNCIL_RECORD_LIMIT :=
  pruneRecords_length_le _ _

lemma applyCouncil_sessions_le (council : CouncilMemoryV2)
    (input : RecordSessionInput) (now : String) :
    (applySessionToCouncilMemory council input now).sessions.length ≤
      COUNCIL_SESSION_LIMIT :=
  List.length_take_le _ _

set_option maxHeartbeats 2000000 in
/-- C9: after any application of the session recorder, the member record list
is the id-deduplicated list sorted by importance descending then updatedAt
descending cut to the top 80 (so it has at most 80 pairwise-sorted records
with distinct ids), the per-member recent-session digests are at most 40, the
two council record lists are each at most 80, and the council session
digests at most 50; the bounds persist over any sequence of recorded
sessions. -/
theorem memory_store_bounded (memory : MemberMemoryV2) (memberId : String)
    (council : CouncilMemoryV2) (input : RecordSessionInput) (now : String)
    (history : List (RecordSessionInput × String)) :
    (applySessionToMemberMemory memory memberId input now).records.length ≤
      MEMBER_RECORD_LIMIT ∧
    List.Pairwise (fun a b => recordLe a b = true)
      (applySessionToMemberMemory memory memberId input now).records ∧
    ((applySessionToMemberMemory memory memberId input now).records.map
      (fun r => r.id)).Nodup ∧
    (applySessionToMemberMemory memory memberId input now).recentSessions.length ≤
      SESSION_DIGEST_LIMIT ∧
    (applySessionToCouncilMemory council input now).globalDecisions.length ≤
      COUNCIL_RECORD_LIMIT ∧
    (applySessionToCouncilMemory council input now).crossAgentLessons.length ≤
      COUNCIL_RECORD_LIMIT ∧
    (applySessionToCouncilMemory council input now).sessions.length ≤
      COUNCIL_SESSION_LIMIT ∧
    (((input, now) :: history).foldl
        (fun mem p => applySessionToMemberMemory mem memberId p.1 p.2)
        memory).records.length ≤ MEMBER_RECORD_LIMIT ∧
    (((input, now) :: history).foldl
        (fun mem p => applySessionToMemberMemory mem memberId p.1 p.2)
        memory).recentSessions.length ≤ SESSION_DIGEST_LIMIT ∧
    (((input, now) :: history).foldl
        (fun c p => applySessionToCouncilMemory c p.1 p.2)
        council).globalDecisions.length ≤ COUNCIL_RECORD_LIMIT ∧
    (((input, now) :: history).foldl
        (fun c p => applySessionToCouncilMemory c p.1 p.2)
        council).sessions.length ≤ COUNCIL_SESSION_LIMIT := by
  refine ⟨applyMember_records_le _ _ _ _, pruneRecords_sorted _ _, pruneRecords_ids_nodup _ _,
    applyMember_recentSessions_le _ _ _ _,
    applyCouncil_globalDecisions_le _ _ _, applyCouncil_crossAgentLessons_le _ _ _,
    applyCouncil_sessions_le _ _ _, ?_, ?_, ?_, ?_⟩
  · exact foldl_pres (fun mem p => applySessionToMemberMemory mem memberId p.1 p.2)
      (fun mem => mem.records.length ≤ MEMBER_RECORD_LIMIT)
      (fun x p => applyMember_records_le x memberId p.1 p.2) history memory (input, now)
  · exact foldl_pres (fun mem p => applySessionToMemberMemory mem memberId p.1 p.2)
      (fun mem => mem.recentSessions.length ≤ SESSION_DIGEST_LIMIT)
      (fun x p => applyMember_recentSessions_le x memberId p.1 p.2) history memory (input, now)
  · exact foldl_pres (fun c p => applySessionToCouncilMemory c p.1 p.2)
      (fun c => c.globalDecisions.length ≤ COUNCIL_RECORD_LIMIT)
      (fun x p => applyCouncil_globalDecisions_le x p.1 p.2) history council (input, now)
  · exact foldl_pres (fun c p => applySessionToCouncilMemory c p.1 p.2)
      (fun c => c.sessions.length ≤ COUNCIL_SESSION_LIMIT)
      (fun x p => applyCouncil_sessions_le x p.1 p.2) history council (input, now)

/-- C10 counterexample: a retained active record with an empty evidence list
passes the recency scoping filter, yet contributes nothing to the derived
prompt context, because its kind outcome has no prompt-context bucket. -/
theorem empty_evidence_record_without_bucket :
    exOutcomeRecord.status = MemoryStatus.active ∧
    exOutcomeRecord.evidence = [] ∧
    exOutcomeRecord ∈ promptScopedRecords [exOutcomeRecord] [] ∧
    contributesToContext (buildPromptContext [exOutcomeRecord] [] "t1")
      exOutcomeRecord.summary = false := by
  refine ⟨rfl, rfl, ?_, rfl⟩
  have h : promptScopedRecords [exOutcomeRecord] [] = [exOutcomeRecord] := rfl
  rw [h]
  exact List.mem_singleton.mpr rfl

/-- C10 amended: a retained record with an empty evidence list always passes
the recency scoping filter regardless of the 25-most-recent-sessions window,
and the filter excludes exactly the records that have at least one evidence
ref, none of whose refs falls inside the window; appearing in the derived
prompt context is additionally subject to the kind buckets and per-bucket
caps. -/
theorem recency_fade_filter_characterization (records : List MemoryRecord)
    (recentSessions : List SessionDigest) (r q : MemoryRecord)
    (hmem : r ∈ records) (hempty : r.evidence = []) (hq : q ∈ records) :
    r ∈ promptScopedRecords records recentSessions ∧
    (q ∉ promptScopedRecords records recentSessions ↔
      (q.evidence ≠ [] ∧ ∀ e ∈ q.evidence,
        e.sessionId ∉ (recentSessions.take PROMPT_CONTEXT_SESSION_WINDOW).map
          (fun s => s.sessionId))) := by
  constructor
  · rw [promptScopedRecords]
    refine List.mem_filter.mpr ⟨hmem, ?_⟩
    simp [hempty]
  · rw [promptScopedRecords]
    constructor
    · intro hnot
      have hpred : ¬(q.evidence.isEmpty ||
          q.evidence.any (fun item =>
            ((recentSessions.take PROMPT_CONTEXT_SESSION_WINDOW).map
              (fun s => s.sessionId)).contains item.sessionId)) = true := by
        intro hp
        exact hnot (List.mem_filter.mpr ⟨hq, hp⟩)
      simp only [Bool.or_eq_true, not_or, List.any_eq_true, not_exists] at hpred
      obtain ⟨h1, h2⟩ := hpred
      refine ⟨by simpa using h1, ?_⟩
      intro e he hc
      exact (h2 e) ⟨he, by simpa using hc⟩
    · rintro ⟨h1, h2⟩ hmemf
      have hpred := (List.mem_filter.mp hmemf).2
      simp only [Bool.or_eq_true, List.any_eq_true] at hpred
      rcases hpred with hp | ⟨e, he, hp⟩
      · exact h1 (by simpa using hp)
      · exact h2 e he (by simpa using hp)

/-- Witness for recency_fade_filter_characterization at the concrete outcome
record with empty evidence and an empty session window. -/
theorem recency_fade_filter_witness :
    (exOutcomeRecord ∈ [exOutcomeRecord] ∧ exOutcomeRecord.evidence = []) ∧
    (exOutcomeRecord ∈ promptScopedRecords [exOutcomeRecord] [] ∧
      (exOutcomeRecord ∉ promptScopedRecords [exOutcomeRecord] [] ↔
        (exOutcomeRecord.evidence ≠ [] ∧ ∀ e ∈ exOutcomeRecord.evidence,
          e.sessionId ∉ (([] : List SessionDigest).take
            PROMPT_CONTEXT_SESSION_WINDOW).map (fun s => s.sessionId)))) :=
  ⟨⟨List.mem_singleton.mpr rfl, rfl⟩,
    recency_fade_filter_characterization [exOutcomeRecord] [] exOutcomeRecord
      exOutcomeRecord (List.mem_singleton.mpr rfl) rfl (List.mem_singleton.mpr rfl)⟩
end Roundtable
